import Mathlib

/-!
Verification development for the couchdbkit typed-property and
dual-representation synchronization engine
(`couchdbkit/schema/properties.py`, `couchdbkit/schema/base.py`).

Python strings are modelled as lists of characters, Python dicts as
association lists, and exceptions as explicit error values.  Each
definition is a shallow embedding of the correspondingly named Python
function; the source file and line are given in the doc comments.
-/

namespace Couch

/-- Strings are modelled as lists of characters. -/
abbrev Str := List Char

/-- Character for a decimal digit value (0-9). -/
def digitChar (n : Nat) : Char := Char.ofNat (48 + n)

/-- Test for an ASCII decimal digit (the `\d` class of the `re` module,
for the ASCII strings all canonical values are made of). -/
def isDigitC (c : Char) : Bool := 48 ≤ c.toNat && c.toNat ≤ 57

/-- Numeric value of a digit character. -/
def digitVal (c : Char) : Nat := c.toNat - 48

/-- Two-digit zero-padded rendering, as used by `date.isoformat` /
`time.isoformat` for months, days, hours, minutes and seconds. -/
def pad2 (n : Nat) : Str := [digitChar (n / 10), digitChar (n % 10)]

/-- Four-digit zero-padded rendering, as used by `date.isoformat` for
the year (Python years are always between 1 and 9999). -/
def pad4 (n : Nat) : Str :=
  [digitChar (n / 1000), digitChar (n / 100 % 10), digitChar (n / 10 % 10), digitChar (n % 10)]

/-- Fuelled helper for `natDigits` (the fuel strictly dominates the
argument, so the base case is never reached from `natDigits`). -/
def natDigitsAux : Nat → Nat → List Nat
  | 0, _ => []
  | fuel + 1, n => if n < 10 then [n] else natDigitsAux fuel (n / 10) ++ [n % 10]

/-- Decimal digits of a natural number, most significant first;
`natDigits 0 = [0]`.  This is `str(n)` for a nonnegative Python int. -/
def natDigits (n : Nat) : List Nat := natDigitsAux (n + 1) n

/-- Render a digit list as characters. -/
def digitsStr (ds : List Nat) : Str := ds.map digitChar

/-- Value of a digit list, most significant first. -/
def parseDigits (ds : List Nat) : Nat := ds.foldl (fun a d => 10 * a + d) 0

/-- Longest digit prefix of a string together with the rest (the
behaviour of a greedy `\d+` / `\d*`). -/
def takeDigits : Str → List Nat × Str
  | [] => ([], [])
  | c :: rest =>
    if isDigitC c then
      let p := takeDigits rest
      (digitVal c :: p.1, p.2)
    else ([], c :: rest)

/-- Strings whose first character is not a digit (including the empty
string); digit runs followed by such a string parse back exactly. -/
def noDigitHead : Str → Prop
  | [] => True
  | c :: _ => isDigitC c = false

instance : DecidablePred noDigitHead := fun s => by
  cases s <;> simp [noDigitHead] <;> infer_instance

theorem digitVal_digitChar : ∀ d : Nat, d < 10 → digitVal (digitChar d) = d := by decide

theorem isDigitC_digitChar : ∀ d : Nat, d < 10 → isDigitC (digitChar d) = true := by decide

theorem takeDigits_render (ds : List Nat) (rest : Str) (hds : ∀ d ∈ ds, d < 10)
    (hrest : noDigitHead rest) : takeDigits (digitsStr ds ++ rest) = (ds, rest) := by
  induction ds with
  | nil =>
    cases rest with
    | nil => rfl
    | cons c r =>
      have hc : isDigitC c = false := hrest
      simp [digitsStr, takeDigits, hc]
  | cons d ds ih =>
    have hd : d < 10 := hds d (List.mem_cons_self d ds)
    have ih' := ih (fun x hx => hds x (List.mem_cons_of_mem d hx))
    simp only [digitsStr, List.map_cons, List.cons_append, takeDigits,
      isDigitC_digitChar d hd, if_true, digitVal_digitChar d hd]
    simp only [digitsStr] at ih'
    simp only [List.append_eq]
    rw [ih']

theorem natDigitsAux_congr : ∀ n f₁ f₂, n < f₁ → n < f₂ →
    natDigitsAux f₁ n = natDigitsAux f₂ n := by
  intro n
  induction n using Nat.strong_induction_on with
  | _ n ih =>
    intro f₁ f₂ h₁ h₂
    match f₁, f₂ with
    | g₁ + 1, g₂ + 1 =>
      simp only [natDigitsAux]
      by_cases h : n < 10
      · simp [h]
      · simp only [h, if_false]
        have hlt : n / 10 < n := Nat.div_lt_self (by omega) (by omega)
        rw [ih (n / 10) hlt g₁ (n + 1) (by omega) (by omega),
            ih (n / 10) hlt g₂ (n + 1) (by omega) (by omega)]

theorem natDigits_unfold (n : Nat) :
    natDigits n = if n < 10 then [n] else natDigits (n / 10) ++ [n % 10] := by
  by_cases h : n < 10
  · simp [natDigits, natDigitsAux, h]
  · have hlt : n / 10 < n := Nat.div_lt_self (by omega) (by omega)
    rw [if_neg h]
    have h1 : natDigitsAux (n + 1) n = natDigitsAux n (n / 10) ++ [n % 10] := by
      simp only [natDigitsAux, h, if_false]
    show natDigitsAux (n + 1) n = natDigits (n / 10) ++ [n % 10]
    rw [h1]
    unfold natDigits
    rw [natDigitsAux_congr (n / 10) n (n / 10 + 1) hlt (by omega)]

theorem natDigits_lt (n : Nat) : ∀ d ∈ natDigits n, d < 10 := by
  induction n using Nat.strong_induction_on with
  | _ n ih =>
    rw [natDigits_unfold]
    by_cases h : n < 10
    · intro d hd
      rw [if_pos h] at hd
      simp at hd; omega
    · intro d hd
      rw [if_neg h] at hd
      rcases List.mem_append.mp hd with h1 | h2
      · exact ih (n / 10) (Nat.div_lt_self (by omega) (by omega)) d h1
      · simp at h2; omega

theorem parseDigits_append (xs : List Nat) (d : Nat) :
    parseDigits (xs ++ [d]) = 10 * parseDigits xs + d := by
  simp [parseDigits, List.foldl_append]

theorem parseDigits_natDigits (n : Nat) : parseDigits (natDigits n) = n := by
  induction n using Nat.strong_induction_on with
  | _ n ih =>
    rw [natDigits_unfold]
    by_cases h : n < 10
    · simp [h, parseDigits]
    · simp only [h, if_false]
      rw [parseDigits_append, ih (n / 10) (Nat.div_lt_self (by omega) (by omega))]
      omega

theorem natDigits_ne_nil (n : Nat) : natDigits n ≠ [] := by
  rw [natDigits_unfold]
  by_cases h : n < 10 <;> simp [h]

/-! ## Rich value types

Models of the Python types `datetime.date`, `datetime.time`,
`datetime.datetime` and `decimal.Decimal` that the type converters of
`couchdbkit/schema/properties.py` translate to and from. -/

/-- Model of `datetime.date`: a calendar day.  A real `date` object can
only hold a valid calendar date in years 1-9999 (`validDate`). -/
structure PDate where
  year : Nat
  month : Nat
  day : Nat
  deriving DecidableEq, Repr

/-- Model of `datetime.time` (naive, no tzinfo). -/
structure PTime where
  hour : Nat
  minute : Nat
  second : Nat
  micro : Nat
  deriving DecidableEq, Repr

/-- Model of `datetime.datetime` (naive, no tzinfo). -/
structure PDateTime where
  year : Nat
  month : Nat
  day : Nat
  hour : Nat
  minute : Nat
  second : Nat
  micro : Nat
  deriving DecidableEq, Repr

/-- Model of a finite `decimal.Decimal`: sign (`true` = negative),
coefficient digits most significant first (`_int`), exponent (`_exp`). -/
structure PDec where
  sign : Bool
  digits : List Nat
  exp : Int
  deriving DecidableEq, Repr

/-- Gregorian leap-year test (`calendar.isleap`, used by `datetime`). -/
def isLeap (y : Nat) : Bool := (y % 4 == 0 && y % 100 != 0) || y % 400 == 0

/-- Days in a month of a given year, as enforced by the constructors of
`datetime.date` / `datetime.datetime`. -/
def daysInMonth (y m : Nat) : Nat :=
  if m = 2 then (if isLeap y then 29 else 28)
  else if m = 4 ∨ m = 6 ∨ m = 9 ∨ m = 11 then 30
  else 31

/-- Invariant of every `datetime.date` object (MINYEAR = 1, MAXYEAR = 9999). -/
def validDate (d : PDate) : Prop :=
  1 ≤ d.year ∧ d.year ≤ 9999 ∧ 1 ≤ d.month ∧ d.month ≤ 12 ∧
    1 ≤ d.day ∧ d.day ≤ daysInMonth d.year d.month

instance : DecidablePred validDate := fun _ => by unfold validDate; infer_instance

/-- Invariant of every `datetime.time` object. -/
def validTime (t : PTime) : Prop :=
  t.hour ≤ 23 ∧ t.minute ≤ 59 ∧ t.second ≤ 59 ∧ t.micro ≤ 999999

instance : DecidablePred validTime := fun _ => by unfold validTime; infer_instance

/-- Invariant of every `datetime.datetime` object. -/
def validDateTime (x : PDateTime) : Prop :=
  validDate ⟨x.year, x.month, x.day⟩ ∧ validTime ⟨x.hour, x.minute, x.second, x.micro⟩

instance : DecidablePred validDateTime := fun _ => by unfold validDateTime; infer_instance

/-- Coefficient invariant of a `Decimal` built from a string, an int or
arithmetic: digits nonempty, each 0-9, and no leading zero except for a
single `0` digit. -/
def normDec (d : PDec) : Prop :=
  d.digits ≠ [] ∧ (∀ x ∈ d.digits, x < 10) ∧
    (d.digits.head? = some 0 → d.digits = [0])

instance : DecidablePred normDec := fun _ => by unfold normDec; infer_instance

/-- Python `date.isoformat()`: `YYYY-MM-DD` (properties.py line 338 and
line 680). -/
def formatDate (d : PDate) : Str :=
  pad4 d.year ++ ['-'] ++ pad2 d.month ++ ['-'] ++ pad2 d.day

/-- Python `time.replace(microsecond=0).isoformat()`: `HH:MM:SS`
(properties.py line 363 and line 682). -/
def formatTime (t : PTime) : Str :=
  pad2 t.hour ++ [':'] ++ pad2 t.minute ++ [':'] ++ pad2 t.second

/-- Python `datetime.replace(microsecond=0).isoformat() + 'Z'`
(properties.py line 309 and line 678). -/
def formatDateTime (x : PDateTime) : Str :=
  pad4 x.year ++ ['-'] ++ pad2 x.month ++ ['-'] ++ pad2 x.day ++ ['T'] ++
    pad2 x.hour ++ [':'] ++ pad2 x.minute ++ [':'] ++ pad2 x.second ++ ['Z']

/-- Position of the decimal point in `Decimal.__str__` (`dotplace` in
decimal.py with `eng=False`): `leftdigits` when the number prints in
fixed-point form (`self._exp <= 0 and leftdigits > -6`), 1 in
scientific form. -/
def decDotplace (d : PDec) : Int :=
  if d.exp ≤ 0 ∧ d.exp + (d.digits.length : Int) > -6 then
    d.exp + (d.digits.length : Int)
  else 1

/-- Digits part (`intpart + fracpart`) of `Decimal.__str__`. -/
def decBody (d : PDec) : Str :=
  if decDotplace d ≤ 0 then
    ['0', '.'] ++ List.replicate (-decDotplace d).toNat '0' ++ digitsStr d.digits
  else if decDotplace d ≥ (d.digits.length : Int) then
    digitsStr d.digits ++ List.replicate ((decDotplace d).toNat - d.digits.length) '0'
  else
    digitsStr (d.digits.take (decDotplace d).toNat) ++ ['.'] ++
      digitsStr (d.digits.drop (decDotplace d).toNat)

/-- Exponent part (`exp` in `Decimal.__str__`): empty when
`leftdigits == dotplace`, otherwise `'E%+d' % (leftdigits-dotplace)`. -/
def decExpPart (d : PDec) : Str :=
  if d.exp + (d.digits.length : Int) = decDotplace d then []
  else
    ['E'] ++
      (if d.exp + (d.digits.length : Int) - decDotplace d ≥ 0 then ['+'] else ['-']) ++
      digitsStr (natDigits (d.exp + (d.digits.length : Int) - decDotplace d).natAbs)

/-- Python `str(Decimal)` (`decimal.Decimal.__str__` with `eng=False`),
the to-scientific-string algorithm of the decimal specification; used by
`DecimalProperty.to_json` via `unicode(value)` (properties.py line 263). -/
def formatDec (d : PDec) : Str :=
  (if d.sign then ['-'] else []) ++ decBody d ++ decExpPart d

/-- Coefficient normalization performed by the `Decimal` constructor:
`str(int(intpart + fracpart))` strips leading zeros, keeping one `0`. -/
def stripZeros (ds : List Nat) : List Nat :=
  match ds.dropWhile (· = 0) with
  | [] => [0]
  | l => l

theorem stripZeros_replicate (k : Nat) (ds : List Nat) :
    stripZeros (List.replicate k 0 ++ ds) = stripZeros ds := by
  induction k with
  | zero => simp
  | succ k ih =>
    have h0 : stripZeros (0 :: (List.replicate k 0 ++ ds)) = stripZeros (List.replicate k 0 ++ ds) := by
      simp [stripZeros, List.dropWhile]
    rw [List.replicate_succ, List.cons_append, h0, ih]

theorem stripZeros_norm (ds : List Nat) (hne : ds ≠ [])
    (hlead : ds.head? = some 0 → ds = [0]) : stripZeros ds = ds := by
  cases ds with
  | nil => exact absurd rfl hne
  | cons d tl =>
    by_cases hd : d = 0
    · have h0 : d :: tl = [0] := hlead (by simp [hd])
      rw [h0]; rfl
    · simp [stripZeros, List.dropWhile, hd]

/-! ## strptime-style field parsers

Models of the `time.strptime` directives used by the `to_python`
converters (`%Y`, `%m`, `%d`, `%H`, `%M`, `%S` with their `_strptime`
regex fragments).  Each directive is followed by a literal or the end of
the format in all three formats used by the source, so the regex engine's
backtracking from a two-digit match to a one-digit match can never
succeed (the extra character is a digit, never the expected literal);
the parsers therefore deterministically prefer the two-digit
alternatives, exactly as the backtracking regex resolves. -/

/-- Directive `%Y`, regex `\d\d\d\d`: exactly four digits. -/
def pY : Str → Option (Nat × Str)
  | a :: b :: c :: d :: r =>
    if isDigitC a ∧ isDigitC b ∧ isDigitC c ∧ isDigitC d then
      some (digitVal a * 1000 + digitVal b * 100 + digitVal c * 10 + digitVal d, r)
    else none
  | _ => none

/-- One-digit fallback alternative `[1-9]` of `%m` and `%d`. -/
def p1to9 : Str → Option (Nat × Str)
  | a :: r => if isDigitC a ∧ 1 ≤ digitVal a then some (digitVal a, r) else none
  | [] => none

/-- One-digit fallback alternative `\d` of `%H`, `%M` and `%S`. -/
def p0to9 : Str → Option (Nat × Str)
  | a :: r => if isDigitC a then some (digitVal a, r) else none
  | [] => none

/-- Directive `%m`, regex `1[0-2]|0[1-9]|[1-9]`. -/
def pMonth : Str → Option (Nat × Str)
  | a :: b :: r =>
    if isDigitC a ∧ isDigitC b ∧ digitVal a ≤ 1 ∧
        1 ≤ 10 * digitVal a + digitVal b ∧ 10 * digitVal a + digitVal b ≤ 12 then
      some (10 * digitVal a + digitVal b, r)
    else p1to9 (a :: b :: r)
  | s => p1to9 s

/-- Directive `%d`, regex `3[01]|[12]\d|0[1-9]|[1-9]`. -/
def pDay : Str → Option (Nat × Str)
  | a :: b :: r =>
    if isDigitC a ∧ isDigitC b ∧ digitVal a ≤ 3 ∧
        1 ≤ 10 * digitVal a + digitVal b ∧ 10 * digitVal a + digitVal b ≤ 31 then
      some (10 * digitVal a + digitVal b, r)
    else p1to9 (a :: b :: r)
  | s => p1to9 s

/-- Directive `%H`, regex `2[0-3]|[0-1]\d|\d`. -/
def pHour : Str → Option (Nat × Str)
  | a :: b :: r =>
    if isDigitC a ∧ isDigitC b ∧ digitVal a ≤ 2 ∧
        10 * digitVal a + digitVal b ≤ 23 then
      some (10 * digitVal a + digitVal b, r)
    else p0to9 (a :: b :: r)
  | s => p0to9 s

/-- Directive `%M`, regex `[0-5]\d|\d`. -/
def pMin : Str → Option (Nat × Str)
  | a :: b :: r =>
    if isDigitC a ∧ isDigitC b ∧ digitVal a ≤ 5 then
      some (10 * digitVal a + digitVal b, r)
    else p0to9 (a :: b :: r)
  | s => p0to9 s

/-- Directive `%S`, regex `6[0-1]|[0-5]\d|\d` (leap seconds allowed by
`strptime`, rejected later by the `time` constructor). -/
def pSec : Str → Option (Nat × Str)
  | a :: b :: r =>
    if isDigitC a ∧ isDigitC b ∧
        (digitVal a ≤ 5 ∨ (digitVal a = 6 ∧ digitVal b ≤ 1)) then
      some (10 * digitVal a + digitVal b, r)
    else p0to9 (a :: b :: r)
  | s => p0to9 s

/-- Literal character in a strptime format. -/
def pLitc (c : Char) : Str → Option Str
  | a :: r => if a = c then some r else none
  | [] => none

/-- Python `value.split('.', 1)[0]`: the part before the first dot. -/
def stripDot (s : Str) : Str := s.takeWhile (· ≠ '.')

/-- Python `value.rstrip('Z')`: remove every trailing `Z`. -/
def rstripZ (s : Str) : Str := (s.reverse.dropWhile (· = 'Z')).reverse

/-- Full-string `strptime(value, '%Y-%m-%d')`, as a field tuple. -/
def strpDate (s : Str) : Option (Nat × Nat × Nat) := do
  let (y, s1) ← pY s
  let s2 ← pLitc '-' s1
  let (m, s3) ← pMonth s2
  let s4 ← pLitc '-' s3
  let (d, s5) ← pDay s4
  if s5 = [] then some (y, m, d) else none

/-- Full-string `strptime(value, '%H:%M:%S')`, as a field tuple. -/
def strpTime (s : Str) : Option (Nat × Nat × Nat) := do
  let (h, s1) ← pHour s
  let s2 ← pLitc ':' s1
  let (m, s3) ← pMin s2
  let s4 ← pLitc ':' s3
  let (sec, s5) ← pSec s4
  if s5 = [] then some (h, m, sec) else none

/-- Full-string `strptime(value, '%Y-%m-%dT%H:%M:%S')`, as a field tuple. -/
def strpDateTime (s : Str) : Option (Nat × Nat × Nat × Nat × Nat × Nat) := do
  let (y, s1) ← pY s
  let s2 ← pLitc '-' s1
  let (mo, s3) ← pMonth s2
  let s4 ← pLitc '-' s3
  let (d, s5) ← pDay s4
  let s6 ← pLitc 'T' s5
  let (h, s7) ← pHour s6
  let s8 ← pLitc ':' s7
  let (mi, s9) ← pMin s8
  let s10 ← pLitc ':' s9
  let (sec, s11) ← pSec s10
  if s11 = [] then some (y, mo, d, h, mi, sec) else none

/-- Serial day number of a civil date (proleptic Gregorian, day 0 =
1970-01-01); the day arithmetic underlying `calendar.timegm`. -/
def daysFromCivil (y m d : Int) : Int :=
  let y1 := y - (if m ≤ 2 then 1 else 0)
  let era := y1.fdiv 400
  let yoe := y1 - era * 400
  let mp := if m > 2 then m - 3 else m + 9
  let doy := (153 * mp + 2).fdiv 5 + d - 1
  let doe := yoe * 365 + yoe.fdiv 4 - yoe.fdiv 100 + doy
  era * 146097 + doe - 719468

/-- Civil date of a serial day number; the day arithmetic underlying
`datetime.utcfromtimestamp`. -/
def civilFromDays (z0 : Int) : Int × Int × Int :=
  let z := z0 + 719468
  let era := z.fdiv 146097
  let doe := z - era * 146097
  let yoe := (doe - doe.fdiv 1460 + doe.fdiv 36524 - doe.fdiv 146096).fdiv 365
  let y := yoe + era * 400
  let doy := doe - (365 * yoe + yoe.fdiv 4 - yoe.fdiv 100)
  let mp := (5 * doy + 2).fdiv 153
  let d := doy - (153 * mp + 2).fdiv 5 + 1
  let m := if mp < 10 then mp + 3 else mp - 9
  (y + (if m ≤ 2 then 1 else 0), m, d)

/-- Seconds since the epoch of a field tuple (`calendar.timegm`). -/
def encodeEpoch (y mo d h mi sec : Nat) : Int :=
  daysFromCivil y mo d * 86400 + (h * 3600 + mi * 60 + sec)

/-- Field tuple of an epoch second count (`datetime.utcfromtimestamp`). -/
def decodeEpoch (ts : Int) : PDateTime :=
  let days := ts.fdiv 86400
  let rem := (ts - days * 86400).toNat
  let c := civilFromDays days
  ⟨c.1.toNat, c.2.1.toNat, c.2.2.toNat, rem / 3600, rem / 60 % 60, rem % 60, 0⟩

/-- Composition `utcfromtimestamp(timegm(tm))` used by
`DateTimeProperty.to_python` (properties.py lines 300-301).  `timegm`
and `utcfromtimestamp` are mutually inverse bijections between valid
civil field tuples and epoch seconds, so the composition fixes every
valid tuple; for the out-of-range tuples `strptime` can still produce
(day 31 in a short month, leap seconds 60-61) the composition
normalizes by carrying, computed here explicitly through the epoch-day
arithmetic. -/
def pyEpochNorm (y mo d h mi sec : Nat) : PDateTime :=
  if validDateTime ⟨y, mo, d, h, mi, sec, 0⟩ then ⟨y, mo, d, h, mi, sec, 0⟩
  else decodeEpoch (encodeEpoch y mo d h mi sec)

/-- `DateProperty.to_python` on a string (properties.py lines 329-335):
`date(*strptime(value, '%Y-%m-%d')[:3])`; the `date` constructor
validates the calendar date and raises `ValueError` otherwise
(modelled by `none`). -/
def parseDatePy (s : Str) : Option PDate := do
  let (y, m, d) ← strpDate s
  let dt : PDate := ⟨y, m, d⟩
  if validDate dt then some dt else none

/-- `TimeProperty.to_python` on a string (properties.py lines 353-360):
strip microseconds after the first dot, then
`time(*strptime(value, '%H:%M:%S')[3:6])`; the `time` constructor
rejects the leap seconds 60-61 that `strptime` admits. -/
def parseTimePy (s : Str) : Option PTime := do
  let (h, m, sec) ← strpTime (stripDot s)
  if sec ≤ 59 then some ⟨h, m, sec, 0⟩ else none

/-- `DateTimeProperty.to_python` on a string (properties.py lines
295-304): strip after the first dot, strip trailing `Z`, parse with
`strptime('%Y-%m-%dT%H:%M:%S')`, then `utcfromtimestamp(timegm(tm))`
(which fails for results outside years 1-9999). -/
def parseDateTimePy (s : Str) : Option PDateTime := do
  let (y, mo, d, h, mi, sec) ← strpDateTime (rstripZ (stripDot s))
  let x := pyEpochNorm y mo d h mi sec
  if 1 ≤ x.year ∧ x.year ≤ 9999 then some x else none

/-! ## Round-trip lemmas for the date/time parsers -/

theorem daysInMonth_le (y m : Nat) : daysInMonth y m ≤ 31 := by
  unfold daysInMonth
  split_ifs <;> omega

theorem pY_pad4 (y : Nat) (hy : y ≤ 9999) (rest : Str) :
    pY (pad4 y ++ rest) = some (y, rest) := by
  have h1 : y / 1000 < 10 := by omega
  have h2 : y / 100 % 10 < 10 := Nat.mod_lt _ (by omega)
  have h3 : y / 10 % 10 < 10 := Nat.mod_lt _ (by omega)
  have h4 : y % 10 < 10 := Nat.mod_lt _ (by omega)
  have e : y / 1000 * 1000 + y / 100 % 10 * 100 + y / 10 % 10 * 10 + y % 10 = y := by omega
  simp [pad4, pY, isDigitC_digitChar _ h1, isDigitC_digitChar _ h2,
    isDigitC_digitChar _ h3, isDigitC_digitChar _ h4, digitVal_digitChar _ h1,
    digitVal_digitChar _ h2, digitVal_digitChar _ h3, digitVal_digitChar _ h4, e]

theorem pMonth_pad2 (m : Nat) (hm1 : 1 ≤ m) (hm2 : m ≤ 12) (rest : Str) :
    pMonth (pad2 m ++ rest) = some (m, rest) := by
  have h1 : m / 10 < 10 := by omega
  have h2 : m % 10 < 10 := Nat.mod_lt _ (by omega)
  have e : 10 * (m / 10) + m % 10 = m := by omega
  simp [pad2, pMonth, isDigitC_digitChar _ h1, isDigitC_digitChar _ h2,
    digitVal_digitChar _ h1, digitVal_digitChar _ h2, e]
  omega

theorem pDay_pad2 (d : Nat) (hd1 : 1 ≤ d) (hd2 : d ≤ 31) (rest : Str) :
    pDay (pad2 d ++ rest) = some (d, rest) := by
  have h1 : d / 10 < 10 := by omega
  have h2 : d % 10 < 10 := Nat.mod_lt _ (by omega)
  have e : 10 * (d / 10) + d % 10 = d := by omega
  simp [pad2, pDay, isDigitC_digitChar _ h1, isDigitC_digitChar _ h2,
    digitVal_digitChar _ h1, digitVal_digitChar _ h2, e]
  omega

theorem pHour_pad2 (h : Nat) (hh : h ≤ 23) (rest : Str) :
    pHour (pad2 h ++ rest) = some (h, rest) := by
  have h1 : h / 10 < 10 := by omega
  have h2 : h % 10 < 10 := Nat.mod_lt _ (by omega)
  have e : 10 * (h / 10) + h % 10 = h := by omega
  simp [pad2, pHour, isDigitC_digitChar _ h1, isDigitC_digitChar _ h2,
    digitVal_digitChar _ h1, digitVal_digitChar _ h2, e]
  omega

theorem pMin_pad2 (m : Nat) (hm : m ≤ 59) (rest : Str) :
    pMin (pad2 m ++ rest) = some (m, rest) := by
  have h1 : m / 10 < 10 := by omega
  have h2 : m % 10 < 10 := Nat.mod_lt _ (by omega)
  have e : 10 * (m / 10) + m % 10 = m := by omega
  simp [pad2, pMin, isDigitC_digitChar _ h1, isDigitC_digitChar _ h2,
    digitVal_digitChar _ h1, digitVal_digitChar _ h2, e]
  omega

theorem pSec_pad2 (s : Nat) (hs : s ≤ 59) (rest : Str) :
    pSec (pad2 s ++ rest) = some (s, rest) := by
  have h1 : s / 10 < 10 := by omega
  have h2 : s % 10 < 10 := Nat.mod_lt _ (by omega)
  have e : 10 * (s / 10) + s % 10 = s := by omega
  simp [pad2, pSec, isDigitC_digitChar _ h1, isDigitC_digitChar _ h2,
    digitVal_digitChar _ h1, digitVal_digitChar _ h2, e]
  omega

theorem digitChar_ne_special : ∀ x : Nat, x < 10 →
    digitChar x ≠ '.' ∧ digitChar x ≠ 'Z' := by decide

theorem pLitc_cons (c : Char) (r : Str) : pLitc c (c :: r) = some r := by simp [pLitc]

theorem dropWhile_no_match {p : Char → Bool} (l : Str) (h : ∀ c ∈ l, p c = false) :
    l.dropWhile p = l := by
  cases l with
  | nil => rfl
  | cons c r => simp [List.dropWhile, h c (by simp)]

theorem stripDot_no_dot (s : Str) (h : ∀ c ∈ s, c ≠ '.') : stripDot s = s := by
  unfold stripDot
  induction s with
  | nil => rfl
  | cons c r ih =>
    have hr : ∀ x ∈ r, x ≠ '.' := fun x hx => h x (by simp [hx])
    have hc : c ≠ '.' := h c (by simp)
    rw [List.takeWhile_cons, if_pos (by simp [hc]), ih hr]

theorem rstripZ_snoc (s : Str) (h : ∀ c ∈ s, c ≠ 'Z') : rstripZ (s ++ ['Z']) = s := by
  unfold rstripZ
  rw [List.reverse_append]
  have h1 : List.dropWhile (· = 'Z') ('Z' :: s.reverse) = List.dropWhile (· = 'Z') s.reverse := by
    simp [List.dropWhile]
  rw [show ['Z'].reverse ++ s.reverse = 'Z' :: s.reverse by rfl, h1,
    dropWhile_no_match s.reverse (by intro c hc; simp [h c (List.mem_reverse.mp hc)]),
    List.reverse_reverse]

theorem pad2_ne (n : Nat) (hn : n ≤ 99) : ∀ c ∈ pad2 n, c ≠ '.' ∧ c ≠ 'Z' := by
  intro c hc
  simp [pad2] at hc
  rcases hc with h | h
  · exact h ▸ digitChar_ne_special (n / 10) (by omega)
  · exact h ▸ digitChar_ne_special (n % 10) (Nat.mod_lt _ (by omega))

theorem pad4_ne (n : Nat) (hn : n ≤ 9999) : ∀ c ∈ pad4 n, c ≠ '.' ∧ c ≠ 'Z' := by
  intro c hc
  simp [pad4] at hc
  rcases hc with h | h | h | h
  · exact h ▸ digitChar_ne_special (n / 1000) (by omega)
  · exact h ▸ digitChar_ne_special (n / 100 % 10) (Nat.mod_lt _ (by omega))
  · exact h ▸ digitChar_ne_special (n / 10 % 10) (Nat.mod_lt _ (by omega))
  · exact h ▸ digitChar_ne_special (n % 10) (Nat.mod_lt _ (by omega))

theorem parseDatePy_format (d : PDate) (h : validDate d) :
    parseDatePy (formatDate d) = some d := by
  obtain ⟨h1, h2, h3, h4, h5, h6⟩ := h
  have hd : d.day ≤ 31 := le_trans h6 (daysInMonth_le _ _)
  have e1 : formatDate d =
      pad4 d.year ++ ('-' :: (pad2 d.month ++ ('-' :: pad2 d.day))) := by
    simp [formatDate]
  have hv : validDate ⟨d.year, d.month, d.day⟩ := by
    simp only [validDate]
    exact ⟨h1, h2, h3, h4, h5, h6⟩
  have hpd : pDay (pad2 d.day) = some (d.day, []) := by
    have h9 := pDay_pad2 d.day h5 hd []
    rwa [List.append_nil] at h9
  simp only [parseDatePy, strpDate, e1, pY_pad4 d.year h2, Option.bind_eq_bind,
    Option.some_bind, pLitc_cons, pMonth_pad2 d.month h3 h4, hpd,
    if_pos rfl, if_true, if_pos hv]

theorem parseTimePy_format (t : PTime) (h : validTime t) (hus : t.micro = 0) :
    parseTimePy (formatTime t) = some t := by
  obtain ⟨h1, h2, h3, _⟩ := h
  have e1 : formatTime t =
      pad2 t.hour ++ (':' :: (pad2 t.minute ++ (':' :: pad2 t.second))) := by
    simp [formatTime]
  have hnd : ∀ c ∈ formatTime t, c ≠ '.' := by
    rw [e1]
    intro c hc
    rcases List.mem_append.mp hc with hc | hc
    · exact (pad2_ne t.hour (by omega) c hc).1
    rcases List.mem_cons.mp hc with rfl | hc
    · decide
    rcases List.mem_append.mp hc with hc | hc
    · exact (pad2_ne t.minute (by omega) c hc).1
    rcases List.mem_cons.mp hc with rfl | hc
    · decide
    exact (pad2_ne t.second (by omega) c hc).1
  have hps : pSec (pad2 t.second) = some (t.second, []) := by
    have h9 := pSec_pad2 t.second h3 []
    rwa [List.append_nil] at h9
  rw [parseTimePy, stripDot_no_dot _ hnd]
  simp only [strpTime, e1, pHour_pad2 t.hour h1, Option.bind_eq_bind, Option.some_bind,
    pLitc_cons, pMin_pad2 t.minute h2, hps, if_pos rfl, if_true, if_pos h3]
  rw [← hus]

theorem parseDateTimePy_format (x : PDateTime) (h : validDateTime x) (hus : x.micro = 0) :
    parseDateTimePy (formatDateTime x) = some x := by
  have h' := h
  simp only [validDateTime, validDate, validTime] at h'
  obtain ⟨⟨h1, h2, h3, h4, h5, h6⟩, hh1, hh2, hh3, _⟩ := h'
  have hd : x.day ≤ 31 := le_trans h6 (daysInMonth_le _ _)
  have e1 : formatDateTime x =
      (pad4 x.year ++ ('-' :: (pad2 x.month ++ ('-' :: (pad2 x.day ++ ('T' ::
        (pad2 x.hour ++ (':' :: (pad2 x.minute ++ (':' :: pad2 x.second)))))))))) ++ ['Z'] := by
    simp [formatDateTime]
  have hne : ∀ c ∈ (pad4 x.year ++ ('-' :: (pad2 x.month ++ ('-' :: (pad2 x.day ++ ('T' ::
      (pad2 x.hour ++ (':' :: (pad2 x.minute ++ (':' :: pad2 x.second)))))))))),
      c ≠ '.' ∧ c ≠ 'Z' := by
    intro c hc
    rcases List.mem_append.mp hc with hc | hc
    · exact pad4_ne x.year h2 c hc
    rcases List.mem_cons.mp hc with rfl | hc
    · decide
    rcases List.mem_append.mp hc with hc | hc
    · exact pad2_ne x.month (by omega) c hc
    rcases List.mem_cons.mp hc with rfl | hc
    · decide
    rcases List.mem_append.mp hc with hc | hc
    · exact pad2_ne x.day (by omega) c hc
    rcases List.mem_cons.mp hc with rfl | hc
    · decide
    rcases List.mem_append.mp hc with hc | hc
    · exact pad2_ne x.hour (by omega) c hc
    rcases List.mem_cons.mp hc with rfl | hc
    · decide
    rcases List.mem_append.mp hc with hc | hc
    · exact pad2_ne x.minute (by omega) c hc
    rcases List.mem_cons.mp hc with rfl | hc
    · decide
    exact pad2_ne x.second (by omega) c hc
  have hnd : ∀ c ∈ formatDateTime x, c ≠ '.' := by
    rw [e1]
    intro c hc
    rcases List.mem_append.mp hc with hc | hc
    · exact (hne c hc).1
    · rcases List.mem_singleton.mp hc with rfl
      decide
  rw [parseDateTimePy, stripDot_no_dot _ hnd, e1,
    rstripZ_snoc _ (fun c hc => (hne c hc).2)]
  have hv : validDateTime ⟨x.year, x.month, x.day, x.hour, x.minute, x.second, 0⟩ := by
    simp only [validDateTime, validDate, validTime]
    exact ⟨⟨h1, h2, h3, h4, h5, h6⟩, hh1, hh2, hh3, by omega⟩
  have hps : pSec (pad2 x.second) = some (x.second, []) := by
    have h9 := pSec_pad2 x.second hh3 []
    rwa [List.append_nil] at h9
  have hen : pyEpochNorm x.year x.month x.day x.hour x.minute x.second =
      ⟨x.year, x.month, x.day, x.hour, x.minute, x.second, 0⟩ := by
    unfold pyEpochNorm
    rw [if_pos hv]
  simp only [strpDateTime, pY_pad4 x.year h2, Option.bind_eq_bind, Option.some_bind,
    pLitc_cons, pMonth_pad2 x.month h3 h4, pDay_pad2 x.day h5 hd,
    pHour_pad2 x.hour hh1, pMin_pad2 x.minute hh2, hps, if_pos rfl, if_true, hen]
  rw [if_pos (show 1 ≤ x.year ∧ x.year ≤ 9999 from ⟨h1, h2⟩)]
  rw [← hus]

/-! ## Decimal constructor parsing -/

/-- Optional leading sign of a numeric string (the `[-+]?` prefixes of
the `Decimal` constructor grammar); `true` means negative. -/
def splitSign : Str → Bool × Str
  | [] => (false, [])
  | c :: r => if c = '-' then (true, r) else if c = '+' then (false, r) else (false, c :: r)

/-- Exponent-and-extraction tail of the `Decimal` constructor: after the
coefficient digits, accept an optional `[eE][-+]?\d+` suffix and build
the value as `decimal.py` does (`self._int = str(int(intpart+fracpart))`,
`self._exp = exp - len(fracpart)`). -/
def parseDecTail (sgn : Bool) (ip fp : List Nat) : Str → Option PDec
  | [] => some ⟨sgn, stripZeros (ip ++ fp), -(fp.length : Int)⟩
  | c :: r =>
    if c = 'E' ∨ c = 'e' then
      if (takeDigits (splitSign r).2).1.isEmpty then none
      else if (takeDigits (splitSign r).2).2 = [] then
        some ⟨sgn, stripZeros (ip ++ fp),
          (if (splitSign r).1 then -(parseDigits (takeDigits (splitSign r).2).1 : Int)
           else (parseDigits (takeDigits (splitSign r).2).1 : Int)) - fp.length⟩
      else none
    else none

/-- Constructor `Decimal(value)` on a finite numeric string
(decimal.py: regex `^[-+]?((\d+)(\.\d*)?|\.\d+)([eE][-+]?\d+)?$` after
`strip()`, then coefficient/exponent extraction).  A non-matching string
raises `InvalidOperation`, modelled by `none`; the special values
NaN/Infinity are outside the modelled value space. -/
def parseDecPy (s : Str) : Option PDec :=
  match (takeDigits (splitSign s).2).2 with
  | [] =>
    if (takeDigits (splitSign s).2).1.isEmpty then none
    else parseDecTail (splitSign s).1 (takeDigits (splitSign s).2).1 [] []
  | c :: r =>
    if c = '.' then
      if (takeDigits (splitSign s).2).1.isEmpty && (takeDigits r).1.isEmpty then none
      else parseDecTail (splitSign s).1 (takeDigits (splitSign s).2).1
        (takeDigits r).1 (takeDigits r).2
    else if (takeDigits (splitSign s).2).1.isEmpty then none
    else parseDecTail (splitSign s).1 (takeDigits (splitSign s).2).1 [] (c :: r)

theorem digitChar_ne_sign : ∀ x : Nat, x < 10 →
    digitChar x ≠ '-' ∧ digitChar x ≠ '+' ∧ digitChar x ≠ '.' ∧
      digitChar x ≠ 'E' ∧ digitChar x ≠ 'e' := by decide

theorem splitSign_plus (r : Str) : splitSign ('+' :: r) = (false, r) := by
  simp [splitSign]

theorem splitSign_minus (r : Str) : splitSign ('-' :: r) = (true, r) := by
  simp [splitSign]

theorem splitSign_no_sign (s : Str)
    (h : ∀ c, s.head? = some c → c ≠ '-' ∧ c ≠ '+') : splitSign s = (false, s) := by
  cases s with
  | nil => rfl
  | cons c r =>
    obtain ⟨h1, h2⟩ := h c rfl
    simp [splitSign, h1, h2]

theorem digitChar_zero : digitChar 0 = '0' := by decide

theorem replicate_zero_chars (k : Nat) :
    List.replicate k '0' = digitsStr (List.replicate k 0) := by
  simp [digitsStr, List.map_replicate, digitChar_zero]

theorem parseDecTail_expPart (sgn : Bool) (ip fp : List Nat) (k : Int) :
    parseDecTail sgn ip fp
      (['E'] ++ (if k ≥ 0 then ['+'] else ['-']) ++ digitsStr (natDigits k.natAbs)) =
    some ⟨sgn, stripZeros (ip ++ fp), k - fp.length⟩ := by
  have hdl := natDigits_lt k.natAbs
  have hne := natDigits_ne_nil k.natAbs
  have htd : takeDigits (digitsStr (natDigits k.natAbs)) = (natDigits k.natAbs, []) := by
    have h0 := takeDigits_render (natDigits k.natAbs) [] hdl trivial
    rwa [List.append_nil] at h0
  have hemp : (natDigits k.natAbs).isEmpty = false := by
    cases h : natDigits k.natAbs with
    | nil => exact absurd h hne
    | cons a l => rfl
  by_cases hk : k ≥ 0
  · rw [if_pos hk]
    show parseDecTail sgn ip fp ('E' :: ('+' :: digitsStr (natDigits k.natAbs))) = _
    rw [parseDecTail, if_pos (Or.inl rfl), splitSign_plus]
    simp only [htd, hemp, Bool.false_eq_true, if_false, if_pos rfl, if_true]
    have he : (parseDigits (natDigits k.natAbs) : Int) = k := by
      rw [parseDigits_natDigits]; omega
    rw [he]
  · rw [if_neg hk]
    show parseDecTail sgn ip fp ('E' :: ('-' :: digitsStr (natDigits k.natAbs))) = _
    rw [parseDecTail, if_pos (Or.inl rfl), splitSign_minus]
    simp only [htd, hemp, Bool.false_eq_true, if_false, if_pos rfl, if_true]
    have he : -(parseDigits (natDigits k.natAbs) : Int) = k := by
      rw [parseDigits_natDigits]; omega
    rw [he]

theorem digitsStr_append (a b : List Nat) :
    digitsStr (a ++ b) = digitsStr a ++ digitsStr b := by
  simp [digitsStr]

theorem splitSign_ifSign (sgn : Bool) (x : Nat) (hx : x < 10) (r : Str) :
    splitSign ((if sgn then ['-'] else []) ++ (digitChar x :: r)) =
      (sgn, digitChar x :: r) := by
  obtain ⟨hm, hp, _, _, _⟩ := digitChar_ne_sign x hx
  cases sgn
  · simp only [Bool.false_eq_true, if_false, List.nil_append]
    exact splitSign_no_sign _ (by
      intro c hc
      simp only [List.head?_cons, Option.some.injEq] at hc
      subst hc
      exact ⟨hm, hp⟩)
  · simp only [if_true, List.singleton_append]
    exact splitSign_minus _

theorem parseDecPy_format (d : PDec) (h : normDec d) : parseDecPy (formatDec d) = some d := by
  obtain ⟨hne, hlt, hlead⟩ := h
  have hstrip : stripZeros d.digits = d.digits := stripZeros_norm _ hne hlead
  obtain ⟨sgn, ds, e⟩ := d
  simp only at hne hlt hstrip ⊢
  cases ds with
  | nil => exact absurd rfl hne
  | cons d0 tl =>
  have hd0 : d0 < 10 := hlt d0 (List.mem_cons_self d0 tl)
  by_cases hfix : e ≤ 0 ∧ e + ((d0 :: tl).length : Int) > -6
  · -- fixed-point form, dotplace = leftdigits
    have hdp : decDotplace ⟨sgn, d0 :: tl, e⟩ = e + ((d0 :: tl).length : Int) := by
      unfold decDotplace
      exact if_pos hfix
    have hexp : decExpPart ⟨sgn, d0 :: tl, e⟩ = [] := by
      unfold decExpPart
      rw [hdp, if_pos rfl]
    by_cases hz : e = 0
    · -- exponent 0: the body is the bare digit string
      subst hz
      have hbody : decBody ⟨sgn, d0 :: tl, 0⟩ = digitsStr (d0 :: tl) := by
        unfold decBody
        rw [hdp, if_neg (by simp), if_pos (by simp)]
        simp
      have hstr : formatDec ⟨sgn, d0 :: tl, 0⟩ =
          (if sgn then ['-'] else []) ++ (digitChar d0 :: digitsStr tl) := by
        rw [formatDec, hbody, hexp, List.append_nil]
        rfl
      have htd : takeDigits (digitChar d0 :: digitsStr tl) = (d0 :: tl, []) := by
        have h0 := takeDigits_render (d0 :: tl) [] hlt trivial
        rwa [List.append_nil] at h0
      rw [hstr, parseDecPy, splitSign_ifSign sgn d0 hd0]
      dsimp only
      rw [htd]
      dsimp only
      simp only [List.isEmpty_cons, Bool.false_eq_true, if_false]
      rw [parseDecTail, List.append_nil, hstrip]
      rfl
    · by_cases hA1 : e + ((d0 :: tl).length : Int) ≤ 0
      · -- dotplace <= 0: leading `0.` plus padding zeros
        have hbody : decBody ⟨sgn, d0 :: tl, e⟩ =
            ['0', '.'] ++ List.replicate (-(e + ((d0 :: tl).length : Int))).toNat '0' ++
              digitsStr (d0 :: tl) := by
          unfold decBody
          rw [hdp, if_pos hA1]
        have hstr : formatDec ⟨sgn, d0 :: tl, e⟩ =
            (if sgn then ['-'] else []) ++ (digitChar 0 :: ('.' ::
              digitsStr (List.replicate (-(e + ((d0 :: tl).length : Int))).toNat 0 ++
                (d0 :: tl)))) := by
          rw [formatDec, hbody, hexp, List.append_nil,
            replicate_zero_chars, digitsStr_append]
          simp [digitChar_zero]
        have ht1 : takeDigits (digitChar 0 :: ('.' ::
            digitsStr (List.replicate (-(e + ((d0 :: tl).length : Int))).toNat 0 ++
              (d0 :: tl)))) =
            ([0], '.' :: digitsStr (List.replicate (-(e + ((d0 :: tl).length : Int))).toNat 0 ++
              (d0 :: tl))) := by
          have h0 := takeDigits_render [0] ('.' ::
              digitsStr (List.replicate (-(e + ((d0 :: tl).length : Int))).toNat 0 ++
                (d0 :: tl))) (by intro x hx; simp at hx; omega)
              (show isDigitC '.' = false by decide)
          simp only [digitsStr, List.map_cons, List.map_nil, List.cons_append,
            List.nil_append] at h0
          simp only [digitsStr]
          exact h0
        have ht2 : takeDigits (digitsStr (List.replicate
            (-(e + ((d0 :: tl).length : Int))).toNat 0 ++ (d0 :: tl))) =
            (List.replicate (-(e + ((d0 :: tl).length : Int))).toNat 0 ++ (d0 :: tl), []) := by
          have h0 := takeDigits_render
            (List.replicate (-(e + ((d0 :: tl).length : Int))).toNat 0 ++ (d0 :: tl)) [] (by
            intro x hx
            rcases List.mem_append.mp hx with hx | hx
            · rw [List.eq_of_mem_replicate hx]; omega
            · exact hlt x hx) trivial
          rwa [List.append_nil] at h0
        rw [hstr, parseDecPy, splitSign_ifSign sgn 0 (by omega)]
        dsimp only
        rw [ht1]
        dsimp only
        rw [if_pos rfl, ht2]
        dsimp only
        simp only [List.isEmpty_cons, Bool.false_eq_true, Bool.false_and, if_false]
        rw [parseDecTail]
        have hz2 : [0] ++ (List.replicate (-(e + ((d0 :: tl).length : Int))).toNat 0 ++
            (d0 :: tl)) =
            List.replicate ((-(e + ((d0 :: tl).length : Int))).toNat + 1) 0 ++ (d0 :: tl) := by
          rw [List.replicate_succ]
          rfl
        rw [hz2, stripZeros_replicate, hstrip]
        simp only [Option.some.injEq, PDec.mk.injEq, List.length_append,
          List.length_replicate, List.length_cons]
        refine ⟨by trivial, by trivial, ?_⟩
        simp only [List.length_cons] at hA1
        omega
      · -- 0 < dotplace < length
        have hneg : e < 0 := by
          rcases hfix with ⟨he, _⟩
          omega
        obtain ⟨j', hj⟩ : ∃ j', (e + ((d0 :: tl).length : Int)).toNat = j' + 1 :=
          ⟨(e + ((d0 :: tl).length : Int)).toNat - 1, by omega⟩
        have hbody : decBody ⟨sgn, d0 :: tl, e⟩ =
            digitsStr (List.take (j' + 1) (d0 :: tl)) ++ ['.'] ++
              digitsStr (List.drop (j' + 1) (d0 :: tl)) := by
          unfold decBody
          rw [hdp, if_neg (by omega), if_neg (by
            simp only [List.length_cons] at *
            omega), hj]
        have hstr : formatDec ⟨sgn, d0 :: tl, e⟩ =
            (if sgn then ['-'] else []) ++ (digitChar d0 ::
              (digitsStr (List.take j' tl) ++ ('.' :: digitsStr (List.drop j' tl)))) := by
          rw [formatDec, hbody, hexp, List.append_nil, List.take_succ_cons,
            List.drop_succ_cons]
          simp [digitsStr, List.append_assoc]
        have ht1 : takeDigits (digitChar d0 ::
            (digitsStr (List.take j' tl) ++ ('.' :: digitsStr (List.drop j' tl)))) =
            (d0 :: List.take j' tl, '.' :: digitsStr (List.drop j' tl)) := by
          have h0 := takeDigits_render (d0 :: List.take j' tl)
              ('.' :: digitsStr (List.drop j' tl)) (by
                intro x hx
                rcases List.mem_cons.mp hx with rfl | hx
                · exact hd0
                · exact hlt x (List.mem_cons_of_mem _ (List.take_subset _ _ hx)))
              (show isDigitC '.' = false by decide)
          simp only [digitsStr, List.map_cons, List.cons_append] at h0
          simp only [digitsStr]
          exact h0
        have ht2 : takeDigits (digitsStr (List.drop j' tl)) = (List.drop j' tl, []) := by
          have h0 := takeDigits_render (List.drop j' tl) []
            (fun x hx => hlt x (List.mem_cons_of_mem _ (List.drop_subset _ _ hx))) trivial
          rwa [List.append_nil] at h0
        rw [hstr, parseDecPy, splitSign_ifSign sgn d0 hd0]
        dsimp only
        rw [ht1]
        dsimp only
        rw [if_pos rfl, ht2]
        dsimp only
        simp only [List.isEmpty_cons, Bool.false_eq_true, Bool.false_and, if_false]
        rw [parseDecTail]
        have hcat : (d0 :: List.take j' tl) ++ List.drop j' tl = d0 :: tl := by
          rw [List.cons_append, List.take_append_drop]
        rw [hcat, hstrip]
        simp only [Option.some.injEq, PDec.mk.injEq, List.length_drop]
        refine ⟨by trivial, by trivial, ?_⟩
        simp only [List.length_cons] at hj
        omega
  · -- scientific form, dotplace = 1
    have hdp : decDotplace ⟨sgn, d0 :: tl, e⟩ = 1 := by
      unfold decDotplace
      exact if_neg hfix
    have hL1 : ¬(e + ((d0 :: tl).length : Int) = 1) := by
      rw [not_and_or] at hfix
      push_neg at hfix
      simp only [List.length_cons] at *
      rcases hfix with he | hL
      · omega
      · omega
    have hexp : decExpPart ⟨sgn, d0 :: tl, e⟩ =
        ['E'] ++ (if e + ((d0 :: tl).length : Int) - 1 ≥ 0 then ['+'] else ['-']) ++
          digitsStr (natDigits (e + ((d0 :: tl).length : Int) - 1).natAbs) := by
      unfold decExpPart
      rw [hdp, if_neg hL1]
    have hEhead : ∀ X : Str, noDigitHead (['E'] ++ X) :=
      fun _ => show isDigitC 'E' = false by decide
    cases tl with
    | nil =>
      -- single coefficient digit: dotplace = 1 = length
      have hbody : decBody ⟨sgn, [d0], e⟩ = digitsStr [d0] := by
        unfold decBody
        rw [hdp, if_neg (by simp), if_pos (by simp)]
        simp
      have hstr : formatDec ⟨sgn, [d0], e⟩ =
          (if sgn then ['-'] else []) ++ (digitChar d0 :: decExpPart ⟨sgn, [d0], e⟩) := by
        rw [formatDec, hbody]
        simp [digitsStr, List.append_assoc]
      have ht1 : takeDigits (digitChar d0 :: decExpPart ⟨sgn, [d0], e⟩) =
          ([d0], decExpPart ⟨sgn, [d0], e⟩) := by
        have h0 := takeDigits_render [d0] (decExpPart ⟨sgn, [d0], e⟩)
          (by intro x hx; simp at hx; omega) (by rw [hexp]; exact hEhead _)
        simp only [digitsStr, List.map_cons, List.map_nil, List.cons_append,
          List.nil_append] at h0
        exact h0
      rw [hstr, parseDecPy, splitSign_ifSign sgn d0 hd0]
      dsimp only
      rw [ht1, hexp]
      simp only [List.append_assoc, List.singleton_append, List.cons_append,
        List.nil_append]
      rw [if_neg (show ¬('E' = '.') by decide)]
      simp only [List.isEmpty_cons, Bool.false_eq_true, if_false]
      have hpt := parseDecTail_expPart sgn [d0] [] (e + (([d0] : List Nat).length : Int) - 1)
      simp only [List.append_assoc, List.singleton_append, List.cons_append,
        List.nil_append, List.append_nil] at hpt
      rw [hpt, hstrip]
      simp only [Option.some.injEq, PDec.mk.injEq, List.length_nil, List.length_cons]
      refine ⟨by trivial, by trivial, ?_⟩
      push_cast
      omega
    | cons t1 tl2 =>
      -- dotplace = 1 < length: one digit, dot, remaining digits
      have hbody : decBody ⟨sgn, d0 :: t1 :: tl2, e⟩ =
          digitsStr (List.take 1 (d0 :: t1 :: tl2)) ++ ['.'] ++
            digitsStr (List.drop 1 (d0 :: t1 :: tl2)) := by
        unfold decBody
        rw [hdp, if_neg (by omega), if_neg (by
          simp only [List.length_cons]
          push_cast
          omega)]
        rfl
      have hstr : formatDec ⟨sgn, d0 :: t1 :: tl2, e⟩ =
          (if sgn then ['-'] else []) ++ (digitChar d0 :: ('.' ::
            (digitsStr (t1 :: tl2) ++ decExpPart ⟨sgn, d0 :: t1 :: tl2, e⟩))) := by
        rw [formatDec, hbody]
        simp [digitsStr, List.append_assoc]
      have ht1 : takeDigits (digitChar d0 :: ('.' ::
          (digitsStr (t1 :: tl2) ++ decExpPart ⟨sgn, d0 :: t1 :: tl2, e⟩))) =
          ([d0], '.' :: (digitsStr (t1 :: tl2) ++
            decExpPart ⟨sgn, d0 :: t1 :: tl2, e⟩)) := by
        have h0 := takeDigits_render [d0] ('.' :: (digitsStr (t1 :: tl2) ++
            decExpPart ⟨sgn, d0 :: t1 :: tl2, e⟩))
          (by intro x hx; simp at hx; omega) (show isDigitC '.' = false by decide)
        simp only [digitsStr, List.map_cons, List.map_nil, List.cons_append,
          List.nil_append] at h0
        simp only [digitsStr]
        exact h0
      have ht2 : takeDigits (digitsStr (t1 :: tl2) ++
          decExpPart ⟨sgn, d0 :: t1 :: tl2, e⟩) =
          (t1 :: tl2, decExpPart ⟨sgn, d0 :: t1 :: tl2, e⟩) :=
        takeDigits_render (t1 :: tl2) _
          (fun x hx => hlt x (List.mem_cons_of_mem _ hx)) (by rw [hexp]; exact hEhead _)
      rw [hstr, parseDecPy, splitSign_ifSign sgn d0 hd0]
      dsimp only
      rw [ht1]
      dsimp only
      rw [if_pos rfl, ht2]
      dsimp only
      simp only [List.isEmpty_cons, Bool.false_eq_true, Bool.false_and, if_false]
      rw [hexp]
      simp only [List.append_assoc, List.singleton_append, List.cons_append,
        List.nil_append]
      have hpt := parseDecTail_expPart sgn [d0] (t1 :: tl2)
        (e + (((d0 :: t1 :: tl2) : List Nat).length : Int) - 1)
      simp only [List.append_assoc, List.singleton_append, List.cons_append,
        List.nil_append] at hpt
      rw [hpt, hstrip]
      simp only [Option.some.injEq, PDec.mk.injEq, List.length_cons]
      refine ⟨by trivial, by trivial, ?_⟩
      push_cast
      omega

/-! ## Per-property type converters and the round trip (claim C2)

Each property class of properties.py owns a `to_python` (canonical JSON
value to native value) and a `to_json` (native value to canonical JSON
value) conversion; the definitions below embed those methods on the
value domain of their kind. -/

/-- Model of a Python `float` as an exact rational.  Every IEEE double
is a rational number, and the float converters perform no arithmetic:
`FloatProperty.to_python = float` and the inherited `to_json` both apply
the `float` builtin, which returns a float argument unchanged. -/
structure PFloat where
  num : Int
  den : Nat
  deriving DecidableEq, Repr

/-- `StringProperty.to_python` (properties.py line 163) is the `unicode`
builtin, the identity on the unicode strings a string field holds. -/
def StringProperty.to_python (s : Str) : Str := s

/-- `Property.to_json` (properties.py lines 151-153) returns
`self.to_python(value)`; for `StringProperty` that is `unicode`. -/
def StringProperty.to_json (s : Str) : Str := StringProperty.to_python s

/-- `IntegerProperty.to_python` (line 184) is the `int` builtin, the
identity on int/long values. -/
def IntegerProperty.to_python (n : Int) : Int := n

/-- Inherited `Property.to_json` for `IntegerProperty`: `int(value)`. -/
def IntegerProperty.to_json (n : Int) : Int := IntegerProperty.to_python n

/-- `FloatProperty.to_python` (line 212) is the `float` builtin, the
identity on floats. -/
def FloatProperty.to_python (f : PFloat) : PFloat := f

/-- Inherited `Property.to_json` for `FloatProperty`: `float(value)`. -/
def FloatProperty.to_json (f : PFloat) : PFloat := FloatProperty.to_python f

/-- `BooleanProperty.to_python` (line 235) is the `bool` builtin, the
identity on booleans. -/
def BooleanProperty.to_python (b : Bool) : Bool := b

/-- Inherited `Property.to_json` for `BooleanProperty`: `bool(value)`. -/
def BooleanProperty.to_json (b : Bool) : Bool := BooleanProperty.to_python b

/-- `DecimalProperty.to_python` (lines 259-260): `decimal.Decimal(value)`
on the stored string. -/
def DecimalProperty.to_python (s : Str) : Option PDec := parseDecPy s

/-- `DecimalProperty.to_json` (lines 262-263): `unicode(value)`, the
to-scientific-string form of the decimal. -/
def DecimalProperty.to_json (d : PDec) : Str := formatDec d

/-- `DateProperty.to_python` (lines 329-335) on a stored string. -/
def DateProperty.to_python (s : Str) : Option PDate := parseDatePy s

/-- `DateProperty.to_json` (lines 337-338): `value.isoformat()`. -/
def DateProperty.to_json (d : PDate) : Str := formatDate d

/-- `TimeProperty.to_python` (lines 353-360) on a stored string. -/
def TimeProperty.to_python (s : Str) : Option PTime := parseTimePy s

/-- `TimeProperty.to_json` (lines 362-363):
`value.replace(microsecond=0).isoformat()`. -/
def TimeProperty.to_json (t : PTime) : Str := formatTime t

/-- `DateTimeProperty.to_python` (lines 295-304) on a stored string. -/
def DateTimeProperty.to_python (s : Str) : Option PDateTime := parseDateTimePy s

/-- `DateTimeProperty.to_json` (lines 306-309) with the default
`auto_now=False`: `value.replace(microsecond=0).isoformat() + 'Z'`. -/
def DateTimeProperty.to_json (x : PDateTime) : Str := formatDateTime x

/-- C2: for every supported value kind (string, integer, float, boolean,
decimal, date, time, datetime) and every non-pathological native value v
of that kind (normalized finite decimals; dates/times/datetimes with the
invariants of their Python types and zero microseconds), converting v to
its canonical JSON form and back to native yields a value equal to v:
`to_python(to_json(v)) == v`. -/
theorem c2_round_trip :
    (∀ s : Str, StringProperty.to_python (StringProperty.to_json s) = s) ∧
    (∀ n : Int, IntegerProperty.to_python (IntegerProperty.to_json n) = n) ∧
    (∀ f : PFloat, FloatProperty.to_python (FloatProperty.to_json f) = f) ∧
    (∀ b : Bool, BooleanProperty.to_python (BooleanProperty.to_json b) = b) ∧
    (∀ d : PDec, normDec d →
      DecimalProperty.to_python (DecimalProperty.to_json d) = some d) ∧
    (∀ d : PDate, validDate d →
      DateProperty.to_python (DateProperty.to_json d) = some d) ∧
    (∀ t : PTime, validTime t → t.micro = 0 →
      TimeProperty.to_python (TimeProperty.to_json t) = some t) ∧
    (∀ x : PDateTime, validDateTime x → x.micro = 0 →
      DateTimeProperty.to_python (DateTimeProperty.to_json x) = some x) := by
  refine ⟨fun s => rfl, fun n => rfl, fun f => rfl, fun b => rfl, ?_, ?_, ?_, ?_⟩
  · exact fun d hd => parseDecPy_format d hd
  · exact fun d hd => parseDatePy_format d hd
  · exact fun t ht hus => parseTimePy_format t ht hus
  · exact fun x hx hus => parseDateTimePy_format x hx hus

/-- Witness for C2: the round trip evaluated at concrete values of each
kind with a hypothesis (Decimal `1.2`, the date 2008-11-10, the time
08:30:09 and the datetime 2008-11-10T08:00:00). -/
theorem c2_round_trip_witness :
    DecimalProperty.to_python (DecimalProperty.to_json ⟨false, [1, 2], -1⟩) =
      some ⟨false, [1, 2], -1⟩ ∧
    DateProperty.to_python (DateProperty.to_json ⟨2008, 11, 10⟩) = some ⟨2008, 11, 10⟩ ∧
    TimeProperty.to_python (TimeProperty.to_json ⟨8, 30, 9, 0⟩) = some ⟨8, 30, 9, 0⟩ ∧
    DateTimeProperty.to_python (DateTimeProperty.to_json ⟨2008, 11, 10, 8, 0, 0, 0⟩) =
      some ⟨2008, 11, 10, 8, 0, 0, 0⟩ :=
  ⟨c2_round_trip.2.2.2.2.1 ⟨false, [1, 2], -1⟩ (by decide),
   c2_round_trip.2.2.2.2.2.1 ⟨2008, 11, 10⟩ (by decide),
   c2_round_trip.2.2.2.2.2.2.1 ⟨8, 30, 9, 0⟩ (by decide) rfl,
   c2_round_trip.2.2.2.2.2.2.2 ⟨2008, 11, 10, 8, 0, 0, 0⟩ (by decide) rfl⟩

/-! ## Canonical JSON values and native Python values

`JValue` models the JSON-safe values held by the canonical document
(`_doc`); `PyVal` models the native Python values seen through the typed
surface.  Dict keys are `DKey` because Python dict keys may be strings
or (through list-index assignment on a dict-valued node) integers. -/

/-- Key of a Python dict / canonical JSON object. -/
inductive DKey where
  | ks (s : Str)
  | ki (n : Int)
  deriving DecidableEq, Repr

/-- JSON-safe values of the canonical document. -/
inductive JValue where
  | jnull
  | jbool (b : Bool)
  | jint (n : Int)
  | jfloat (f : PFloat)
  | jstr (s : Str)
  | jarr (xs : List JValue)
  | jobj (kvs : List (DKey × JValue))

/-- Native Python values handled by the converters and containers. -/
inductive PyVal where
  | pynone
  | pybool (b : Bool)
  | pyint (n : Int)
  | pyfloat (f : PFloat)
  | pystr (s : Str)
  | pydate (d : PDate)
  | pytime (t : PTime)
  | pydatetime (x : PDateTime)
  | pydecimal (d : PDec)
  | pylist (xs : List PyVal)
  | pydict (kvs : List (DKey × PyVal))

open JValue PyVal

mutual
/-- `value_to_json` (properties.py lines 672-689): datetimes, dates,
times and decimals become their canonical strings, lists and dicts
convert recursively, every other value passes through unchanged. -/
def value_to_json : PyVal → JValue
  | pydatetime x => jstr (formatDateTime x)
  | pydate d => jstr (formatDate d)
  | pytime t => jstr (formatTime t)
  | pydecimal d => jstr (formatDec d)
  | pylist xs => jarr (list_to_json xs)
  | pydict kvs => jobj (dict_to_json kvs)
  | pynone => jnull
  | pybool b => jbool b
  | pyint n => jint n
  | pyfloat f => jfloat f
  | pystr s => jstr s

/-- `list_to_json` (properties.py lines 668-670). -/
def list_to_json : List PyVal → List JValue
  | [] => []
  | v :: rest => value_to_json v :: list_to_json rest

/-- `dict_to_json` (properties.py lines 664-666): converts the values,
keys pass through. -/
def dict_to_json : List (DKey × PyVal) → List (DKey × JValue)
  | [] => []
  | (k, v) :: rest => (k, value_to_json v) :: dict_to_json rest
end

/-! ## The detection regexes (properties.py lines 52-55)

Each pattern is embedded as a full-match test with regex semantics: a
matcher maps a string to the list of possible rests (in backtracking
order), and a pattern matches when the empty rest is reachable. -/

/-- Class `\D?`: optionally one non-digit character (greedy). -/
def mOptND : Str → List Str
  | [] => [[]]
  | c :: r => if isDigitC c then [c :: r] else [r, c :: r]

/-- Group `(0[1-9]|1[0-2])` of `re_date` / `re_datetime`. -/
def mMonth2 : Str → List Str
  | a :: b :: r =>
    if (a = '0' ∧ isDigitC b ∧ 1 ≤ digitVal b) ∨ (a = '1' ∧ isDigitC b ∧ digitVal b ≤ 2) then
      [r]
    else []
  | _ => []

/-- Group `([12]\d|0[1-9]|3[01])` of `re_date` / `re_datetime`. -/
def mDay2 : Str → List Str
  | a :: b :: r =>
    if ((a = '1' ∨ a = '2') ∧ isDigitC b) ∨ (a = '0' ∧ isDigitC b ∧ 1 ≤ digitVal b) ∨
        (a = '3' ∧ isDigitC b ∧ digitVal b ≤ 1) then
      [r]
    else []
  | _ => []

/-- Group `([01]\d|2[0-3])` of `re_time` / `re_datetime`. -/
def mHour2 : Str → List Str
  | a :: b :: r =>
    if ((a = '0' ∨ a = '1') ∧ isDigitC b) ∨ (a = '2' ∧ isDigitC b ∧ digitVal b ≤ 3) then
      [r]
    else []
  | _ => []

/-- Group `([0-5]\d)` of `re_time` / `re_datetime`. -/
def mMin2 : Str → List Str
  | a :: b :: r => if isDigitC a ∧ digitVal a ≤ 5 ∧ isDigitC b then [r] else []
  | _ => []

/-- Group `(\d{4})`. -/
def mD4 : Str → List Str
  | a :: b :: c :: d :: r =>
    if isDigitC a ∧ isDigitC b ∧ isDigitC c ∧ isDigitC d then [r] else []
  | _ => []

/-- Group `(\d{3})?`. -/
def mMs3Opt : Str → List Str
  | a :: b :: c :: r =>
    if isDigitC a ∧ isDigitC b ∧ isDigitC c then [r, a :: b :: c :: r] else [a :: b :: c :: r]
  | s => [s]

/-- Optional seconds group `([0-5]\d)?`. -/
def mMin2Opt (s : Str) : List Str := mMin2 s ++ [s]

/-- Timezone group `([zZ]|([\+-])([01]\d|2[0-3])\D?([0-5]\d)?)?` of
`re_datetime` (the whole group is optional). -/
def mTzOpt (s : Str) : List Str :=
  (match s with
   | c :: r =>
     (if c = 'z' ∨ c = 'Z' then [r] else []) ++
       (if c = '+' ∨ c = '-' then ((mHour2 r).flatMap mOptND).flatMap mMin2Opt else [])
   | [] => []) ++ [s]

/-- The date part `(\d{4})\D?(0[1-9]|1[0-2])\D?([12]\d|0[1-9]|3[01])`
shared by `re_date` and `re_datetime`. -/
def mDatePart (s : Str) : List Str :=
  ((((mD4 s).flatMap mOptND).flatMap mMonth2).flatMap mOptND).flatMap mDay2

/-- Full match of `re_date` (properties.py line 52). -/
def reDateMatch (s : Str) : Bool := (mDatePart s).any (· = [])

/-- Full match of `re_time` (properties.py line 53):
`^([01]\d|2[0-3])\D?([0-5]\d)\D?([0-5]\d)?\D?(\d{3})?$`. -/
def reTimeMatch (s : Str) : Bool :=
  (((((((mHour2 s).flatMap mOptND).flatMap mMin2).flatMap mOptND).flatMap
    mMin2Opt).flatMap mOptND).flatMap mMs3Opt).any (· = [])

/-- Full match of `re_datetime` (properties.py line 54): the date part
followed by an optional time-of-day-and-timezone part. -/
def reDatetimeMatch (s : Str) : Bool :=
  ((mDatePart s).flatMap (fun t =>
    (((((((((mOptND t).flatMap mHour2).flatMap mOptND).flatMap mMin2).flatMap
      mOptND).flatMap mMin2Opt).flatMap mOptND).flatMap mMs3Opt).flatMap mTzOpt) ++
      [t])).any (· = [])

/-- Rests of `\d*`: consume between zero and all leading digits. -/
def mDigitsStar : Str → List Str
  | [] => [[]]
  | c :: r => if isDigitC c then (c :: r) :: mDigitsStar r else [c :: r]

/-- Rests of `\d+`: at least one digit. -/
def mDigits1 : Str → List Str
  | [] => []
  | c :: r => if isDigitC c then mDigitsStar r else []

/-- Full match of `re_decimal` (properties.py line 55): `^(\d+).(\d+)$`
with an unescaped dot, which matches any character except a newline. -/
def reDecimalMatch (s : Str) : Bool :=
  (((mDigits1 s).flatMap (fun t =>
    match t with
    | c :: r => if c = (Char.ofNat 10) then [] else [r]
    | [] => [])).flatMap mDigits1).any (· = [])

mutual
/-- `value_to_python` (properties.py lines 692-717): a string is matched
against `re_date`, `re_time`, `re_datetime` and `re_decimal` in that
order; on the first match the corresponding property's `to_python` is
attempted inside a bare try/except, keeping the original string when it
raises; lists and dicts convert recursively; other values pass through. -/
def value_to_python : JValue → PyVal
  | jstr s =>
    if reDateMatch s then
      match DateProperty.to_python s with
      | some d => pydate d
      | none => pystr s
    else if reTimeMatch s then
      match TimeProperty.to_python s with
      | some t => pytime t
      | none => pystr s
    else if reDatetimeMatch s then
      match DateTimeProperty.to_python s with
      | some x => pydatetime x
      | none => pystr s
    else if reDecimalMatch s then
      match DecimalProperty.to_python s with
      | some d => pydecimal d
      | none => pystr s
    else pystr s
  | jarr xs => pylist (list_to_python xs)
  | jobj kvs => pydict (dict_to_python kvs)
  | jnull => pynone
  | jbool b => pybool b
  | jint n => pyint n
  | jfloat f => pyfloat f

/-- `list_to_python` (properties.py lines 719-721). -/
def list_to_python : List JValue → List PyVal
  | [] => []
  | v :: rest => value_to_python v :: list_to_python rest

/-- `dict_to_python` (properties.py lines 723-725). -/
def dict_to_python : List (DKey × JValue) → List (DKey × PyVal)
  | [] => []
  | (k, v) :: rest => (k, value_to_python v) :: dict_to_python rest
end

/-- Modelled from the spec's words, as the refinement reference for C8:
an explicit best-effort classifier with precedence order
date > time > datetime > decimal > no conversion, converting only on a
full-pattern match, and leaving the value as the original string on a
failed parse. -/
def specClassifier (s : Str) : PyVal :=
  if reDateMatch s then
    match parseDatePy s with
    | some d => pydate d
    | none => pystr s
  else if reTimeMatch s then
    match parseTimePy s with
    | some t => pytime t
    | none => pystr s
  else if reDatetimeMatch s then
    match parseDateTimePy s with
    | some x => pydatetime x
    | none => pystr s
  else if reDecimalMatch s then
    match parseDecPy s with
    | some d => pydecimal d
    | none => pystr s
  else pystr s

/-- C8: speculative type detection for stored string values tries the
format patterns in the fixed precedence order date, time, datetime,
decimal, converts only on a full-pattern match, and on any conversion
failure leaves the value as the original string rather than raising;
non-matching strings are returned unchanged.  `value_to_python` on a
string equals the classifier written from that description. -/
theorem c8_speculative_detection : ∀ s : Str, value_to_python (jstr s) = specClassifier s := by
  intro s
  rw [value_to_python]
  rfl

/-! ## Synchronized containers (`LazyDict`, `LazyList`)

State of a `LazyDict` is its own dict storage (native values) plus the
referenced canonical node (a JSON object); a `LazyList` holds its list
storage plus its `doc` attribute, which can be any object the caller
handed to the constructor.  Every operation returns the mutated pair
together with an optional raised exception; mutations performed before
an exception persist, as they do through Python's in-place aliasing. -/

/-- Exceptions raised by the modelled operations. -/
inductive PyErr where
  | keyError
  | indexError
  | typeError
  | attributeError
  | valueError
  | badValue
  | reservedWord
  deriving DecidableEq, Repr

/-- Python `d[k] = v` on a dict (update in place, else append). -/
def dSet {α : Type} (d : List (DKey × α)) (k : DKey) (v : α) : List (DKey × α) :=
  match d with
  | [] => [(k, v)]
  | (k1, v1) :: rest => if k1 = k then (k1, v) :: rest else (k1, v1) :: dSet rest k v

/-- Python `d.get(k)` / `d[k]` lookup. -/
def dGet {α : Type} (d : List (DKey × α)) (k : DKey) : Option α :=
  match d with
  | [] => none
  | (k1, v1) :: rest => if k1 = k then some v1 else dGet rest k

/-- Python `del d[k]`: `KeyError` when the key is absent. -/
def dDel {α : Type} (d : List (DKey × α)) (k : DKey) : List (DKey × α) × Option PyErr :=
  match d with
  | [] => ([], some PyErr.keyError)
  | (k1, v1) :: rest =>
    if k1 = k then (rest, none)
    else
      let r := dDel rest k
      ((k1, v1) :: r.1, r.2)

/-- Python `l[i] = v` on a list: `IndexError` out of range. -/
def lSet {α : Type} (l : List α) (i : Nat) (v : α) : List α × Option PyErr :=
  if i < l.length then (l.set i v, none) else (l, some PyErr.indexError)

/-- Python `obj[i] = v` for an arbitrary `doc` object: list assignment
needs a valid index, dict assignment stores under the integer key,
anything else raises `TypeError`. -/
def jvIndexSet (d : JValue) (i : Nat) (v : JValue) : JValue × Option PyErr :=
  match d with
  | jarr xs => if i < xs.length then (jarr (xs.set i v), none) else (jarr xs, some PyErr.indexError)
  | jobj kvs => (jobj (dSet kvs (DKey.ki i) v), none)
  | other => (other, some PyErr.typeError)

/-- Python `del obj[i]`. -/
def jvIndexDel (d : JValue) (i : Nat) : JValue × Option PyErr :=
  match d with
  | jarr xs =>
    if i < xs.length then (jarr (xs.eraseIdx i), none) else (jarr xs, some PyErr.indexError)
  | jobj kvs =>
    let r := dDel kvs (DKey.ki i)
    (jobj r.1, r.2)
  | other => (other, some PyErr.typeError)

/-- Python `obj.append(v)`: only lists have `append`. -/
def jvAppend (d : JValue) (v : JValue) : JValue × Option PyErr :=
  match d with
  | jarr xs => (jarr (xs ++ [v]), none)
  | other => (other, some PyErr.attributeError)

/-- Python `obj[i]` read. -/
def jvIndexGet (d : JValue) (i : Nat) : Except PyErr JValue :=
  match d with
  | jarr xs => if h : i < xs.length then .ok (xs.get ⟨i, h⟩) else .error PyErr.indexError
  | jobj kvs =>
    match dGet kvs (DKey.ki i) with
    | some v => .ok v
    | none => .error PyErr.keyError
  | _ => .error PyErr.typeError

mutual
/-- `LazyDict.__setitem__` (properties.py lines 521-529).  A dict value
gets a fresh empty canonical sub-node first (`self.doc[key] = {}`); a
list value does NOT: the child `LazyList` is built directly over
`self.doc[key]`, whatever that currently is (`KeyError` on a fresh key);
other values are converted with `value_to_json` and stored; the
wrapper's own storage is updated last (`super().__setitem__`). -/
def ldSetItem (w : List (DKey × PyVal)) (d : List (DKey × JValue)) (k : DKey) (v : PyVal) :
    List (DKey × PyVal) × List (DKey × JValue) × Option PyErr :=
  match v with
  | pydict m =>
    let c := ldInit m []
    let d2 := dSet d k (jobj c.2.1)
    match c.2.2 with
    | some e => (w, d2, some e)
    | none => (dSet w k (pydict c.1), d2, none)
  | pylist l =>
    match dGet d k with
    | none => (w, d, some PyErr.keyError)
    | some sub =>
      let c := llInit l sub
      let d2 := dSet d k c.2.1
      match c.2.2 with
      | some e => (w, d2, some e)
      | none => (dSet w k (pylist c.1), d2, none)
  | _ => (dSet w k v, dSet d k (value_to_json v), none)
termination_by (sizeOf v, 0)
decreasing_by
  all_goals simp_wf
  all_goals (apply Prod.Lex.left; simp_arith)

/-- `LazyDict.__init__` (properties.py lines 514-519): start from an
empty dict and run `self[key] = value` for every item of `d`. -/
def ldInit (items : List (DKey × PyVal)) (d : List (DKey × JValue)) :
    List (DKey × PyVal) × List (DKey × JValue) × Option PyErr :=
  ldInitGo items [] d
termination_by (sizeOf items, 2)
decreasing_by
  apply Prod.Lex.right
  omega

/-- Item loop shared by `LazyDict.__init__` and `LazyDict.update`
(properties.py lines 518-519 and 546-548). -/
def ldInitGo (items : List (DKey × PyVal)) (w : List (DKey × PyVal))
    (d : List (DKey × JValue)) :
    List (DKey × PyVal) × List (DKey × JValue) × Option PyErr :=
  match items with
  | [] => (w, d, none)
  | (k, v) :: rest =>
    let r := ldSetItem w d k v
    match r.2.2 with
    | some e => (r.1, r.2.1, some e)
    | none => ldInitGo rest r.1 r.2.1
termination_by (sizeOf items, 1)
decreasing_by
  all_goals simp_wf
  all_goals (apply Prod.Lex.left; simp_arith)

/-- `LazyList.__setitem__` (properties.py lines 576-585): dict and list
values both get a fresh empty canonical sub-node (`self.doc[index] = {}`
or `= []`) before the child container is built over it; scalars are
converted and assigned; `list.__setitem__` updates the wrapper last. -/
def llSetItem (w : List PyVal) (d : JValue) (i : Nat) (v : PyVal) :
    List PyVal × JValue × Option PyErr :=
  match v with
  | pydict m =>
    let s1 := jvIndexSet d i (jobj [])
    match s1.2 with
    | some e => (w, s1.1, some e)
    | none =>
      let c := ldInit m []
      let d2 := (jvIndexSet s1.1 i (jobj c.2.1)).1
      match c.2.2 with
      | some e => (w, d2, some e)
      | none =>
        let ws := lSet w i (pydict c.1)
        (ws.1, d2, ws.2)
  | pylist l =>
    let s1 := jvIndexSet d i (jarr [])
    match s1.2 with
    | some e => (w, s1.1, some e)
    | none =>
      let c := llInit l (jarr [])
      let d2 := (jvIndexSet s1.1 i c.2.1).1
      match c.2.2 with
      | some e => (w, d2, some e)
      | none =>
        let ws := lSet w i (pylist c.1)
        (ws.1, d2, ws.2)
  | _ =>
    let s1 := jvIndexSet d i (value_to_json v)
    match s1.2 with
    | some e => (w, s1.1, some e)
    | none =>
      let ws := lSet w i v
      (ws.1, s1.1, ws.2)
termination_by (sizeOf v, 0)
decreasing_by
  all_goals simp_wf
  all_goals (apply Prod.Lex.left; simp_arith)

/-- `LazyList.__init__` (properties.py lines 565-570): `list.__init__`
copies the items into the wrapper, then `self[idx] = item` runs for
every item of the original list, writing through to `self.doc`. -/
def llInit (l : List PyVal) (d : JValue) : List PyVal × JValue × Option PyErr :=
  llInitGo 0 l l d
termination_by (sizeOf l, 2)
decreasing_by
  apply Prod.Lex.right
  omega

/-- Index loop of `LazyList.__init__`. -/
def llInitGo (i : Nat) (rem : List PyVal) (w : List PyVal) (d : JValue) :
    List PyVal × JValue × Option PyErr :=
  match rem with
  | [] => (w, d, none)
  | v :: rest =>
    let r := llSetItem w d i v
    match r.2.2 with
    | some e => (r.1, r.2.1, some e)
    | none => llInitGo (i + 1) rest r.1 r.2.1
termination_by (sizeOf rem, 1)
decreasing_by
  all_goals simp_wf
  all_goals (apply Prod.Lex.left; simp_arith)

end

/-- `LazyList.append` (properties.py lines 587-603): `index = len(self)`
(the wrapper), append a fresh sub-node (or the converted scalar) to the
doc, build the child container over `self.doc[index]`, then
`super().append`. -/
def llAppend (w : List PyVal) (d : JValue) (v : PyVal) :
    List PyVal × JValue × Option PyErr :=
  match v with
  | pydict m =>
    let a := jvAppend d (jobj [])
    match a.2 with
    | some e => (w, a.1, some e)
    | none =>
      match jvIndexGet a.1 w.length with
      | .error e => (w, a.1, some e)
      | .ok (jobj kvs) =>
        let c := ldInit m kvs
        let d2 := (jvIndexSet a.1 w.length (jobj c.2.1)).1
        match c.2.2 with
        | some e => (w, d2, some e)
        | none => (w ++ [pydict c.1], d2, none)
      | .ok _ =>
        -- a dict-method call on the non-dict node found at `index`
        -- raises (TypeError or AttributeError depending on the first
        -- item); unreachable from synchronized states
        (w, a.1, some PyErr.typeError)
  | pylist l =>
    let a := jvAppend d (jarr [])
    match a.2 with
    | some e => (w, a.1, some e)
    | none =>
      match jvIndexGet a.1 w.length with
      | .error e => (w, a.1, some e)
      | .ok sub =>
        let c := llInit l sub
        let d2 := (jvIndexSet a.1 w.length c.2.1).1
        match c.2.2 with
        | some e => (w, d2, some e)
        | none => (w ++ [pylist c.1], d2, none)
  | _ =>
    let a := jvAppend d (value_to_json v)
    match a.2 with
    | some e => (w, a.1, some e)
    | none => (w ++ [v], a.1, none)

/-- `LazyDict.__delitem__` (properties.py lines 531-533): delete from
the canonical node first, then from the wrapper. -/
def ldDelItem (w : List (DKey × PyVal)) (d : List (DKey × JValue)) (k : DKey) :
    List (DKey × PyVal) × List (DKey × JValue) × Option PyErr :=
  let dd := dDel d k
  match dd.2 with
  | some e => (w, dd.1, some e)
  | none =>
    let wd := dDel w k
    (wd.1, dd.1, wd.2)

/-- `LazyDict.pop` (properties.py lines 535-537): `del self.doc[key]`
succeeds first; the following `super(LazyDict, self).pop(key,
default=default)` then raises `TypeError`, because the builtin
`dict.pop` accepts no keyword arguments in Python 2 — the doc loses the
key while the wrapper keeps it. -/
def ldPop (w : List (DKey × PyVal)) (d : List (DKey × JValue)) (k : DKey) :
    List (DKey × PyVal) × List (DKey × JValue) × Option PyErr :=
  let dd := dDel d k
  match dd.2 with
  | some e => (w, dd.1, some e)
  | none => (w, dd.1, some PyErr.typeError)

/-- `LazyDict.update` (properties.py lines 546-548): set-item semantics
per pair. -/
def ldUpdate (w : List (DKey × PyVal)) (d : List (DKey × JValue))
    (pairs : List (DKey × PyVal)) :
    List (DKey × PyVal) × List (DKey × JValue) × Option PyErr :=
  ldInitGo pairs w d

/-- `LazyDict.clear` (properties.py lines 555-557). -/
def ldClear (_w : List (DKey × PyVal)) (_d : List (DKey × JValue)) :
    List (DKey × PyVal) × List (DKey × JValue) × Option PyErr :=
  ([], [], none)

/-- `LazyList.__delitem__` (properties.py lines 572-574): delete from
the doc first, then `list.__delitem__`. -/
def llDelItem (w : List PyVal) (d : JValue) (i : Nat) :
    List PyVal × JValue × Option PyErr :=
  let dd := jvIndexDel d i
  match dd.2 with
  | some e => (w, dd.1, some e)
  | none =>
    if i < w.length then (w.eraseIdx i, dd.1, none) else (w, dd.1, some PyErr.indexError)

/-- C1 (code bug): a single claim-listed mutation on a `LazyDict` built
over a synchronized canonical node makes the two views diverge with no
exception raised.  Starting from the synchronized state
`{"a": [1, 2]}`, the set-item `d["a"] = [3]` completes without error,
yet afterwards the canonical node holds `{"a": [3, 2]}` while the
wrapper's contents convert to `{"a": [3]}`: `LazyDict.__setitem__`'s
list branch skips the sub-node allocation, so `LazyList.__init__`
rewrites the old two-element node in place index by index. -/
theorem c1_lazydict_sync_divergence :
    value_to_json (pydict [(DKey.ks ['a'], pylist [pyint 1, pyint 2])]) =
      jobj [(DKey.ks ['a'], jarr [jint 1, jint 2])] ∧
    ldSetItem [(DKey.ks ['a'], pylist [pyint 1, pyint 2])]
        [(DKey.ks ['a'], jarr [jint 1, jint 2])]
        (DKey.ks ['a']) (pylist [pyint 3]) =
      ([(DKey.ks ['a'], pylist [pyint 3])],
       [(DKey.ks ['a'], jarr [jint 3, jint 2])], none) ∧
    value_to_json (pydict [(DKey.ks ['a'], pylist [pyint 3])]) ≠
      jobj [(DKey.ks ['a'], jarr [jint 3, jint 2])] := by
  refine ⟨rfl, ?_, ?_⟩
  · simp [ldSetItem, llInit, llInitGo, llSetItem, dGet, dSet, jvIndexSet, lSet,
      value_to_json]
  · intro h
    simp [value_to_json, list_to_json, dict_to_json] at h

/-- C3 (code bug): the allocate-empty-sub-node-first discipline holds
for a dict value assigned into a `LazyDict` and for a dict value
assigned into a `LazyList`, but not for a list value assigned into a
`LazyDict`: there `__setitem__` reads `self.doc[key]` without any
allocation and raises `KeyError` on a fresh key, leaving the canonical
node untouched; and for a nonempty list assigned into a `LazyList`, the
child construction over the freshly allocated empty node raises
`IndexError`. -/
theorem c3_lazydict_list_no_alloc :
    ldSetItem [] [] (DKey.ks ['a']) (pydict []) =
      ([(DKey.ks ['a'], pydict [])], [(DKey.ks ['a'], jobj [])], none) ∧
    llSetItem [pynone] (jarr [jnull]) 0 (pydict []) =
      ([pydict []], jarr [jobj []], none) ∧
    ldSetItem [] [] (DKey.ks ['a']) (pylist [pyint 1]) =
      ([], [], some PyErr.keyError) ∧
    llSetItem [pynone] (jarr [jnull]) 0 (pylist [pyint 1]) =
      ([pynone], jarr [jarr []], some PyErr.indexError) := by
  refine ⟨?_, ?_, ?_, ?_⟩
  · simp [ldSetItem, ldInit, ldInitGo, dGet, dSet]
  · simp [llSetItem, ldInit, ldInitGo, dGet, dSet, jvIndexSet, lSet]
  · simp [ldSetItem, dGet]
  · simp [llSetItem, llInit, llInitGo, dGet, dSet, jvIndexSet, lSet, value_to_json]

/-! ## Property descriptors (`Property` and its subclasses)

A descriptor is modelled by its configuration: the value kind of the
concrete class, the field name and the `default`, `required`,
`validators` and `choices` constructor arguments (properties.py lines
62-81).  Method calls on a document instance become functions from the
canonical document to a new document, with raised exceptions as
`Except` errors. -/

/-- The concrete property classes of properties.py.  `kdatetime` is a
`DateTimeProperty` with the default `auto_now=False, auto_now_add=False`;
`klist` is a `ListProperty` with the default `item_type=None`. -/
inductive PKind where
  | kbase
  | kstr
  | kint
  | kfloat
  | kbool
  | kdec
  | kdatetime
  | kdate
  | ktime
  | kdict
  | klist
  deriving DecidableEq, Repr

/-- Python truthiness (`bool(value)` / `not value`) of the modelled
values: `None`, `False`, numeric zero, empty strings and empty
containers are falsy; a `datetime.time` is falsy exactly at
midnight with zero microseconds (Python 2 semantics); dates and
datetimes are always truthy; a `Decimal` is falsy when its
coefficient is zero. -/
def pyTruthy : PyVal → Bool
  | pynone => false
  | pybool b => b
  | pyint n => n != 0
  | pyfloat f => f.num != 0
  | pystr s => !s.isEmpty
  | pylist l => !l.isEmpty
  | pydict d => !d.isEmpty
  | pydate _ => true
  | pydatetime _ => true
  | pytime t => !(t.hour == 0 && t.minute == 0 && t.second == 0 && t.micro == 0)
  | pydecimal d => d.digits.any (fun x => x != 0)

/-- Exact rational value of a numeric Python value (`bool`, `int`,
`float`), as numerator and denominator. -/
def pyNum : PyVal → Option (Int × Nat)
  | pybool b => some (if b then 1 else 0, 1)
  | pyint n => some (n, 1)
  | pyfloat f => some (f.num, f.den)
  | _ => none

/-- Exact rational value of a finite `Decimal`. -/
def decRat (d : PDec) : Int × Nat :=
  let c : Int := parseDigits d.digits
  let s : Int := if d.sign then -c else c
  if 0 ≤ d.exp then (s * 10 ^ d.exp.toNat, 1) else (s, 10 ^ (-d.exp).toNat)

/-- Equality of two rational values given as numerator/denominator. -/
def ratEq (a b : Int × Nat) : Bool := a.1 * (b.2 : Int) == b.1 * (a.2 : Int)

mutual
/-- Python `==` on the modelled values, as used by the `choices` scan of
`Property.validate` (line 129).  Numeric types (`bool`, `int`, `long`,
`float`) compare by exact value across types; `Decimal` compares
numerically with ints and bools but never equals a `float` (Python 2
returns `False` for `Decimal() == float()`); strings, dates, times and
datetimes compare within their own type; lists and dicts compare
recursively (the association lists are compared in order: the
order-insensitive part of Python dict equality is not needed by any
theorem below, where choice members are scalars). -/
def pyEq : PyVal → PyVal → Bool
  | pynone, pynone => true
  | pystr a, pystr b => a == b
  | pydate a, pydate b => a == b
  | pytime a, pytime b => a == b
  | pydatetime a, pydatetime b => a == b
  | pydecimal a, pydecimal b => ratEq (decRat a) (decRat b)
  | pydecimal a, pyint n => ratEq (decRat a) (n, 1)
  | pydecimal a, pybool b => ratEq (decRat a) (if b then 1 else 0, 1)
  | pyint n, pydecimal b => ratEq (n, 1) (decRat b)
  | pybool a, pydecimal b => ratEq (if a then 1 else 0, 1) (decRat b)
  | pybool a, pybool b => a == b
  | pybool a, pyint n => (if a then 1 else 0 : Int) == n
  | pybool a, pyfloat f => ratEq (if a then 1 else 0, 1) (f.num, f.den)
  | pyint n, pybool b => n == (if b then 1 else 0 : Int)
  | pyint a, pyint b => a == b
  | pyint n, pyfloat f => ratEq (n, 1) (f.num, f.den)
  | pyfloat f, pybool b => ratEq (f.num, f.den) (if b then 1 else 0, 1)
  | pyfloat f, pyint n => ratEq (f.num, f.den) (n, 1)
  | pyfloat a, pyfloat b => ratEq (a.num, a.den) (b.num, b.den)
  | pylist a, pylist b => pyEqList a b
  | pydict a, pydict b => pyEqDict a b
  | _, _ => false

/-- Elementwise Python `==` on lists. -/
def pyEqList : List PyVal → List PyVal → Bool
  | [], [] => true
  | a :: as_, b :: bs => pyEq a b && pyEqList as_ bs
  | _, _ => false

/-- Pairwise Python `==` on association lists. -/
def pyEqDict : List (DKey × PyVal) → List (DKey × PyVal) → Bool
  | [], [] => true
  | (ka, va) :: as_, (kb, vb) :: bs => ka == kb && pyEq va vb && pyEqDict as_ bs
  | _, _ => false
end

/-- The `default` argument of a property: a literal value (possibly
`None`, written `lit pynone`) or a zero-argument callable, invoked
afresh at each default resolution (`Property.default_value`,
lines 112-118). -/
inductive DefaultSpec where
  | lit (v : PyVal)
  | producer (f : Unit → PyVal)

/-- Configuration of one declared property descriptor. -/
structure PropertyDesc where
  kind : PKind
  name : Str
  default : DefaultSpec
  required : Bool
  choices : List PyVal
  validators : List (PyVal → Option PyErr)

/-- The `empty` test used by required-field validation: only
`IntegerProperty` overrides it with `value is None` (lines 186-187);
every other class inherits `Property.empty` (lines 143-145),
`not value or value is None`, which is Python falsiness. -/
def propEmpty (k : PKind) (v : PyVal) : Bool :=
  match k with
  | PKind.kint => match v with | pynone => true | _ => false
  | _ => !pyTruthy v

/-- The `choices` scan of `Property.validate` (lines 126-133), embedded
exactly as written: each iteration first updates `match` and then tests
`if not match`, raising while scanning, so the error is avoided only
when the very first comparison already matched. -/
def choicesLoopGo (v : PyVal) : List PyVal → Bool → Option PyErr
  | [], _ => none
  | c :: rest, matched =>
    let m2 := matched || pyEq c v
    if !m2 then some PyErr.badValue else choicesLoopGo v rest m2

/-- The validator pass of `Property.validate` (lines 134-140): each
callable runs in order; its return value is ignored, it signals failure
by raising. -/
def runValidators : List (PyVal → Option PyErr) → PyVal → Option PyErr
  | [], _ => none
  | f :: rest, v =>
    match f v with
    | some e => some e
    | none => runValidators rest v

/-- The subclass tail of `validate` after `super().validate` returned:
every subclass first returns `None` unchanged, then checks the value's
type.  `isinstance(value, (int, long))` accepts bools (a Python `bool`
is an `int`); `DateProperty` accepts datetimes (`datetime` subclasses
`date`); the date/time/dict/list classes guard their check with the
value's truthiness (`if value and not isinstance(...)`,
`if value and value is not None`), so falsy values skip it; plain
`Property` and `DecimalProperty` add no check.  The contents pass of
`DictProperty`/`ListProperty` never raises here because every modelled
value's type is in `ALLOWED_PROPERTY_TYPES` (and `item_type` is None). -/
def kindCheck (k : PKind) (v : PyVal) : Option PyErr :=
  match v with
  | pynone => none
  | v =>
    match k with
    | PKind.kbase => none
    | PKind.kdec => none
    | PKind.kstr => match v with | pystr _ => none | _ => some PyErr.badValue
    | PKind.kint => match v with | pyint _ => none | pybool _ => none | _ => some PyErr.badValue
    | PKind.kfloat => match v with | pyfloat _ => none | _ => some PyErr.badValue
    | PKind.kbool => match v with | pybool _ => none | _ => some PyErr.badValue
    | PKind.kdatetime =>
      if !pyTruthy v then none
      else match v with | pydatetime _ => none | _ => some PyErr.badValue
    | PKind.kdate =>
      if !pyTruthy v then none
      else match v with | pydate _ => none | pydatetime _ => none | _ => some PyErr.badValue
    | PKind.ktime =>
      if !pyTruthy v then none
      else match v with | pytime _ => none | _ => some PyErr.badValue
    | PKind.kdict =>
      if !pyTruthy v then none
      else match v with | pydict _ => none | _ => some PyErr.badValue
    | PKind.klist =>
      if !pyTruthy v then none
      else match v with | pylist _ => none | _ => some PyErr.badValue

/-- `validate(value, required)` (lines 120-141 plus the subclass tails):
when `required` and the value is empty, raise only if the property is
required; otherwise (the `else` branch) scan a truthy `choices`; then
run the validators; then the subclass type check. -/
def propValidate (p : PropertyDesc) (v : PyVal) (required : Bool) : Except PyErr PyVal :=
  let early : Option PyErr :=
    if required && propEmpty p.kind v then
      if p.required then some PyErr.badValue else none
    else if !p.choices.isEmpty then choicesLoopGo v p.choices false
    else none
  match early with
  | some e => Except.error e
  | none =>
    match runValidators p.validators v with
    | some e => Except.error e
    | none =>
      match kindCheck p.kind v with
      | some e => Except.error e
      | none => Except.ok v

/-- Six-digit zero-padded rendering of microseconds
(`isoformat` prints `.%06d` for a nonzero microsecond field). -/
def pad6 (n : Nat) : Str :=
  List.replicate (6 - (natDigits n).length) '0' ++ digitsStr (natDigits n)

/-- Python `str(int)`: optional minus sign and decimal digits. -/
def intStr (n : Int) : Str :=
  (if n < 0 then ['-'] else []) ++ digitsStr (natDigits n.natAbs)

/-- Marker for the string renderings this development leaves opaque
(`unicode` of a float, a list or a dict: `repr`-based forms no theorem
below depends on). -/
def strUnmodeled : Str := ['<', 'r', 'e', 'p', 'r', '>']

/-- The microsecond suffix of `isoformat`: empty when zero. -/
def microSuffix (us : Nat) : Str := if us == 0 then [] else '.' :: pad6 us

/-- `time.isoformat()` with the microsecond field kept. -/
def timeIso (t : PTime) : Str := formatTime t ++ microSuffix t.micro

/-- `datetime.isoformat(sep)` with the microsecond field kept. -/
def dtIso (sep : Char) (x : PDateTime) : Str :=
  formatDate ⟨x.year, x.month, x.day⟩ ++ sep ::
    (formatTime ⟨x.hour, x.minute, x.second, 0⟩ ++ microSuffix x.micro)

/-- Python `unicode(value)` on the modelled values: `None` renders as
the four-character string `"None"`, booleans as `"True"`/`"False"`,
ints by `str`, strings unchanged, decimals/dates/times/datetimes by
their `__str__` (for a datetime, `isoformat(' ')`). -/
def pyUnicode : PyVal → Str
  | pynone => ['N', 'o', 'n', 'e']
  | pybool true => ['T', 'r', 'u', 'e']
  | pybool false => ['F', 'a', 'l', 's', 'e']
  | pyint n => intStr n
  | pystr s => s
  | pydecimal d => formatDec d
  | pydate d => formatDate d
  | pytime t => timeIso t
  | pydatetime x => dtIso ' ' x
  | pyfloat _ => strUnmodeled
  | pylist _ => strUnmodeled
  | pydict _ => strUnmodeled

/-- Python `unicode(value)` on canonical JSON values (the stored side,
reached through `Property.to_python`). -/
def jUnicode : JValue → Str
  | jnull => ['N', 'o', 'n', 'e']
  | jbool true => ['T', 'r', 'u', 'e']
  | jbool false => ['F', 'a', 'l', 's', 'e']
  | jint n => intStr n
  | jstr s => s
  | jfloat _ => strUnmodeled
  | jarr _ => strUnmodeled
  | jobj _ => strUnmodeled

/-- Python truthiness of a stored JSON value (`bool(value)`). -/
def jTruthy : JValue → Bool
  | jnull => false
  | jbool b => b
  | jint n => n != 0
  | jfloat f => f.num != 0
  | jstr s => !s.isEmpty
  | jarr xs => !xs.isEmpty
  | jobj kvs => !kvs.isEmpty

/-- The `int` builtin on a string: optional sign then decimal digits
(surrounding whitespace and the base arguments are not needed by any
theorem and are not modelled). -/
def parseIntPy (s : Str) : Option Int :=
  let sr := splitSign s
  match takeDigits sr.2 with
  | (ds, []) =>
    if ds.isEmpty then none
    else some (if sr.1 then -(parseDigits ds : Int) else (parseDigits ds : Int))
  | _ => none

/-- The `float` builtin on a string: optional sign, digits, optional
point and fraction digits, as an exact rational (exponent forms and
`inf`/`nan`, and IEEE rounding, are not needed by any theorem and are
not modelled). -/
def parseFloatPy (s : Str) : Option PFloat :=
  let sr := splitSign s
  match takeDigits sr.2 with
  | (ip, '.' :: r2) =>
    match takeDigits r2 with
    | (fp, []) =>
      if ip.isEmpty && fp.isEmpty then none
      else
        let m : Int := parseDigits ip * 10 ^ fp.length + parseDigits fp
        some ⟨if sr.1 then -m else m, 10 ^ fp.length⟩
    | _ => none
  | (ip, []) =>
    if ip.isEmpty then none
    else some ⟨if sr.1 then -(parseDigits ip : Int) else (parseDigits ip : Int), 1⟩
  | _ => none

/-- `Decimal(n)` for an int: sign, coefficient digits, exponent 0. -/
def decOfInt (n : Int) : PDec := ⟨decide (n < 0), natDigits n.natAbs, 0⟩

/-- `int(Decimal)`: truncation toward zero of the decimal's value. -/
def decTruncInt (d : PDec) : Int :=
  let c := parseDigits d.digits
  let m : Nat := if 0 ≤ d.exp then c * 10 ^ d.exp.toNat else c / 10 ^ (-d.exp).toNat
  if d.sign then -(m : Int) else (m : Int)

/-- `int(float)`: truncation toward zero. -/
def floatTruncInt (f : PFloat) : Int :=
  let q : Nat := f.num.natAbs / f.den
  if f.num < 0 then -(q : Int) else (q : Int)

mutual
/-- A stored JSON value as the Python object the interpreter hands to
code that does not convert it (null is `None`, arrays are lists,
objects are dicts); used by the date/time converters' non-string
pass-through. -/
def jvToPyRaw : JValue → PyVal
  | jnull => pynone
  | jbool b => pybool b
  | jint n => pyint n
  | jfloat f => pyfloat f
  | jstr s => pystr s
  | jarr xs => pylist (jvListRaw xs)
  | jobj kvs => pydict (jvDictRaw kvs)

/-- Elementwise raw view of an array. -/
def jvListRaw : List JValue → List PyVal
  | [] => []
  | v :: rest => jvToPyRaw v :: jvListRaw rest

/-- Pairwise raw view of an object. -/
def jvDictRaw : List (DKey × JValue) → List (DKey × PyVal)
  | [] => []
  | (k, v) :: rest => (k, jvToPyRaw v) :: jvDictRaw rest
end

/-- `to_python` of each property class on a stored value.  `kbase` and
`kstr` apply `unicode`; `kint` applies `int` (`ValueError` on a
non-numeric string, `TypeError` on null and containers); `kfloat`
applies `float`; `kbool` applies `bool` (total); `kdec` applies
`decimal.Decimal` (a malformed string raises `InvalidOperation`,
modelled as `valueError`; a float raises `TypeError` in the Python of
this code's era); the date/time kinds parse strings and pass any other
value through unchanged (lines 295-304, 329-335, 353-360); `kdict`
builds `LazyDict(value_to_python(value), value)`, whose `__init__`
re-inserts every converted item through `__setitem__` (so a nested
list raises `KeyError`, the C3 bug) and needs `.items()`
(`AttributeError` otherwise); `klist` builds
`LazyList(value_to_python(value), value)`.  The in-place rewrite the
Lazy constructors perform on the aliased node is not observable through
the read path's return value, which is all this function models; the
rewrite itself is `ldInit`/`llInit`. -/
def propToPython (k : PKind) (v : JValue) : Except PyErr PyVal :=
  match k with
  | PKind.kbase => Except.ok (pystr (jUnicode v))
  | PKind.kstr => Except.ok (pystr (jUnicode v))
  | PKind.kint =>
    match v with
    | jint n => Except.ok (pyint n)
    | jbool b => Except.ok (pyint (if b then 1 else 0))
    | jfloat f => Except.ok (pyint (floatTruncInt f))
    | jstr s =>
      match parseIntPy s with
      | some n => Except.ok (pyint n)
      | none => Except.error PyErr.valueError
    | _ => Except.error PyErr.typeError
  | PKind.kfloat =>
    match v with
    | jfloat f => Except.ok (pyfloat f)
    | jint n => Except.ok (pyfloat ⟨n, 1⟩)
    | jbool b => Except.ok (pyfloat ⟨if b then 1 else 0, 1⟩)
    | jstr s =>
      match parseFloatPy s with
      | some f => Except.ok (pyfloat f)
      | none => Except.error PyErr.valueError
    | _ => Except.error PyErr.typeError
  | PKind.kbool => Except.ok (pybool (jTruthy v))
  | PKind.kdec =>
    match v with
    | jstr s =>
      match parseDecPy s with
      | some d => Except.ok (pydecimal d)
      | none => Except.error PyErr.valueError
    | jint n => Except.ok (pydecimal (decOfInt n))
    | jbool b => Except.ok (pydecimal (decOfInt (if b then 1 else 0)))
    | _ => Except.error PyErr.typeError
  | PKind.kdate =>
    match v with
    | jstr s =>
      match parseDatePy s with
      | some d => Except.ok (pydate d)
      | none => Except.error PyErr.valueError
    | v => Except.ok (jvToPyRaw v)
  | PKind.ktime =>
    match v with
    | jstr s =>
      match parseTimePy s with
      | some t => Except.ok (pytime t)
      | none => Except.error PyErr.valueError
    | v => Except.ok (jvToPyRaw v)
  | PKind.kdatetime =>
    match v with
    | jstr s =>
      match parseDateTimePy s with
      | some x => Except.ok (pydatetime x)
      | none => Except.error PyErr.valueError
    | v => Except.ok (jvToPyRaw v)
  | PKind.kdict =>
    match v with
    | jobj kvs =>
      match ldInit (dict_to_python kvs) kvs with
      | (cont, _, none) => Except.ok (pydict cont)
      | (_, _, some e) => Except.error e
    | _ => Except.error PyErr.attributeError
  | PKind.klist =>
    match v with
    | jarr xs =>
      match llInit (list_to_python xs) (jarr xs) with
      | (cont, _, none) => Except.ok (pylist cont)
      | (_, _, some e) => Except.error e
    | _ => Except.error PyErr.typeError

/-- `to_json` of each property class on a native value.  `kbase`,
`kstr` and `kdec` apply `unicode` (total); `kint`/`kfloat` apply
`int`/`float`; `kbool` applies `bool` (total); `kdatetime` needs
`value.replace(microsecond=0)` (a time object has it, a date or a
string raises `TypeError` on the keyword, anything else
`AttributeError`); `kdate` calls `value.isoformat()` (a datetime value
keeps its microseconds and `T` separator); `ktime` calls
`value.replace(microsecond=0).isoformat()`; `kdict`/`klist` call the
module-level `value_to_json` (lines 422-423, 491-492).  `float` of a
Decimal keeps the exact rational here (IEEE rounding is not modelled
and no theorem reaches it). -/
def propToJson (k : PKind) (v : PyVal) : Except PyErr JValue :=
  match k with
  | PKind.kbase => Except.ok (jstr (pyUnicode v))
  | PKind.kstr => Except.ok (jstr (pyUnicode v))
  | PKind.kint =>
    match v with
    | pyint n => Except.ok (jint n)
    | pybool b => Except.ok (jint (if b then 1 else 0))
    | pyfloat f => Except.ok (jint (floatTruncInt f))
    | pydecimal d => Except.ok (jint (decTruncInt d))
    | pystr s =>
      match parseIntPy s with
      | some n => Except.ok (jint n)
      | none => Except.error PyErr.valueError
    | _ => Except.error PyErr.typeError
  | PKind.kfloat =>
    match v with
    | pyfloat f => Except.ok (jfloat f)
    | pyint n => Except.ok (jfloat ⟨n, 1⟩)
    | pybool b => Except.ok (jfloat ⟨if b then 1 else 0, 1⟩)
    | pydecimal d => Except.ok (jfloat ⟨(decRat d).1, (decRat d).2⟩)
    | pystr s =>
      match parseFloatPy s with
      | some f => Except.ok (jfloat f)
      | none => Except.error PyErr.valueError
    | _ => Except.error PyErr.typeError
  | PKind.kbool => Except.ok (jbool (pyTruthy v))
  | PKind.kdec => Except.ok (jstr (pyUnicode v))
  | PKind.kdatetime =>
    match v with
    | pydatetime x => Except.ok (jstr (formatDateTime x))
    | pytime t => Except.ok (jstr (formatTime t ++ ['Z']))
    | pydate _ => Except.error PyErr.typeError
    | pystr _ => Except.error PyErr.typeError
    | _ => Except.error PyErr.attributeError
  | PKind.kdate =>
    match v with
    | pydate d => Except.ok (jstr (formatDate d))
    | pydatetime x => Except.ok (jstr (dtIso 'T' x))
    | pytime t => Except.ok (jstr (timeIso t))
    | _ => Except.error PyErr.attributeError
  | PKind.ktime =>
    match v with
    | pytime t => Except.ok (jstr (formatTime t))
    | pydatetime x =>
      Except.ok (jstr (formatDate ⟨x.year, x.month, x.day⟩ ++ 'T' ::
        formatTime ⟨x.hour, x.minute, x.second, 0⟩))
    | pydate _ => Except.error PyErr.typeError
    | _ => Except.error PyErr.attributeError
  | PKind.kdict => Except.ok (value_to_json v)
  | PKind.klist => Except.ok (value_to_json v)

/-- `default_value` (lines 112-118 and the Dict/List overrides,
lines 404-417 and 473-486): a callable default is invoked afresh, a
literal is returned; the dict/list classes replace a `None` result by
an empty container (their shallow `dict(value)`/`list(value)` copy is
the identity in this value model). -/
def defaultValue (p : PropertyDesc) : PyVal :=
  let base :=
    match p.default with
    | DefaultSpec.lit v => v
    | DefaultSpec.producer f => f ()
  match p.kind with
  | PKind.kdict => match base with | pynone => pydict [] | v => v
  | PKind.klist => match base with | pynone => pylist [] | v => v
  | _ => base

/-- `Property.__get__` (lines 95-103): fetch `_doc.get(self.name)`; a
missing key and a stored null both give Python `None`, which is
returned as-is (no conversion, and no default is consulted); any other
stored value goes through `to_python`. -/
def propGet (p : PropertyDesc) (doc : List (DKey × JValue)) : Except PyErr (Option PyVal) :=
  match dGet doc (DKey.ks p.name) with
  | none => Except.ok none
  | some jnull => Except.ok none
  | some v => (propToPython p.kind v).map some

/-- `Property.__set__` (lines 105-107): validate with `required=False`,
then store `to_json` of the result — for every value, `None` included. -/
def propSet (p : PropertyDesc) (doc : List (DKey × JValue)) (v : PyVal) :
    Except PyErr (List (DKey × JValue)) :=
  match propValidate p v false with
  | Except.error e => Except.error e
  | Except.ok v2 =>
    match propToJson p.kind v2 with
    | Except.error e => Except.error e
    | Except.ok j => Except.ok (dSet doc (DKey.ks p.name) j)

/-- `Property.__property_init__` (lines 88-93): a `None` value is
stored as null without conversion; any other value is validated with
`required=False` and stored as `to_json` of the result. -/
def propertyInit (p : PropertyDesc) (v : PyVal) (doc : List (DKey × JValue)) :
    Except PyErr (List (DKey × JValue)) :=
  match v with
  | pynone => Except.ok (dSet doc (DKey.ks p.name) jnull)
  | v =>
    match propValidate p v false with
    | Except.error e => Except.error e
    | Except.ok v2 =>
      match propToJson p.kind v2 with
      | Except.error e => Except.error e
      | Except.ok j => Except.ok (dSet doc (DKey.ks p.name) j)

/-- C4 (counterexample): a declared integer property with literal
default 5 over a document whose canonical dict lacks the key.  The
claim says the read returns the descriptor's default; `__get__`
(lines 95-103) returns the `.get` result `None` as-is and never
consults `default_value`, whose value 5 differs from the `None`
returned. -/
theorem c4_absent_key_counterexample :
    propGet ⟨PKind.kint, ['n'], DefaultSpec.lit (pyint 5), false, [], []⟩ [] =
      Except.ok none ∧
    defaultValue ⟨PKind.kint, ['n'], DefaultSpec.lit (pyint 5), false, [], []⟩ = pyint 5 ∧
    (Except.ok none : Except PyErr (Option PyVal)) ≠ Except.ok (some (pyint 5)) := by
  refine ⟨rfl, rfl, ?_⟩
  intro h
  simp at h

/-- C4 (amended): reading a declared property returns the native
conversion of the canonical value when the field key is present with a
non-null value, and returns `None` — not the descriptor's default —
when the key is absent or holds null. -/
theorem c4_read_returns_conversion_or_none :
    ∀ (p : PropertyDesc) (doc : List (DKey × JValue)),
      (dGet doc (DKey.ks p.name) = none → propGet p doc = Except.ok none) ∧
      (dGet doc (DKey.ks p.name) = some jnull → propGet p doc = Except.ok none) ∧
      ∀ v, dGet doc (DKey.ks p.name) = some v → v ≠ jnull →
        propGet p doc = (propToPython p.kind v).map some := by
  intro p doc
  refine ⟨fun h => by simp [propGet, h], fun h => by simp [propGet, h], ?_⟩
  intro v h hne
  cases v with
  | jnull => exact absurd rfl hne
  | jbool b => simp [propGet, h]
  | jint n => simp [propGet, h]
  | jfloat f => simp [propGet, h]
  | jstr s => simp [propGet, h]
  | jarr xs => simp [propGet, h]
  | jobj kvs => simp [propGet, h]

/-- Witness for C4's amended theorem: an integer property with default
5 reading the stored value 7 gives the conversion `int(7)`, at a
concrete document discharging the hypotheses. -/
theorem c4_read_returns_conversion_or_none_witness :
    propGet ⟨PKind.kint, ['n'], DefaultSpec.lit (pyint 5), false, [], []⟩
        [(DKey.ks ['n'], jint 7)] =
      (propToPython PKind.kint (jint 7)).map some :=
  (c4_read_returns_conversion_or_none
      ⟨PKind.kint, ['n'], DefaultSpec.lit (pyint 5), false, [], []⟩
      [(DKey.ks ['n'], jint 7)]).2.2 (jint 7) rfl (by simp)

/-- C5: a string property with choices `['a', 'b']`.  The claim says a
value equal to any member of the choices set (not only the first)
passes validation.  Because the `if not match` test sits inside the
scanning loop (lines 128-133), the value `'b'` — equal to the second
choice — raises `BadValueError` at the first iteration, while the
value `'a'` (equal to the first choice) passes.  So validation
rejects members of the choices set, against both the spec sentence and
any plausible intent of a choices check. -/
theorem c5_choices_raise_inside_loop :
    propValidate ⟨PKind.kstr, ['c'], DefaultSpec.lit pynone, false,
        [pystr ['a'], pystr ['b']], []⟩ (pystr ['b']) true =
      Except.error PyErr.badValue ∧
    propValidate ⟨PKind.kstr, ['c'], DefaultSpec.lit pynone, false,
        [pystr ['a'], pystr ['b']], []⟩ (pystr ['a']) true =
      Except.ok (pystr ['a']) := ⟨rfl, rfl⟩

/-- C6 (counterexample): the claim says a required float property
accepts `0.0` and a required boolean property accepts `False` (only
`None` empty).  Only `IntegerProperty` overrides `empty`;
`FloatProperty` and `BooleanProperty` inherit the falsiness test, so
both validations raise `BadValueError`. -/
theorem c6_falsy_required_counterexample :
    propValidate ⟨PKind.kfloat, ['n'], DefaultSpec.lit pynone, true, [], []⟩
        (pyfloat ⟨0, 1⟩) true = Except.error PyErr.badValue ∧
    propValidate ⟨PKind.kbool, ['n'], DefaultSpec.lit pynone, true, [], []⟩
        (pybool false) true = Except.error PyErr.badValue := ⟨rfl, rfl⟩

/-- C6 (amended): the emptiness test is kind-dependent, but the split
is integer-only: for integer descriptors exactly `None` is empty (so a
required int accepts 0 and rejects `None`), while every other kind —
float and boolean included — treats any falsy value as empty, making a
required check fail on it. -/
theorem c6_required_empty_dispatch :
    (∀ v, propEmpty PKind.kint v = true ↔ v = pynone) ∧
    (∀ k, k ≠ PKind.kint → ∀ v, propEmpty k v = !pyTruthy v) ∧
    propValidate ⟨PKind.kint, ['n'], DefaultSpec.lit pynone, true, [], []⟩ (pyint 0) true =
      Except.ok (pyint 0) ∧
    propValidate ⟨PKind.kint, ['n'], DefaultSpec.lit pynone, true, [], []⟩ pynone true =
      Except.error PyErr.badValue ∧
    propValidate ⟨PKind.kstr, ['n'], DefaultSpec.lit pynone, true, [], []⟩ (pystr []) true =
      Except.error PyErr.badValue := by
  refine ⟨?_, ?_, rfl, rfl, rfl⟩
  · intro v
    cases v <;> simp [propEmpty]
  · intro k hk v
    cases k with
    | kint => exact absurd rfl hk
    | kbase => rfl
    | kstr => rfl
    | kfloat => rfl
    | kbool => rfl
    | kdec => rfl
    | kdatetime => rfl
    | kdate => rfl
    | ktime => rfl
    | kdict => rfl
    | klist => rfl

/-- Witness for C6's amended theorem: the falsiness clause applied at
the float kind and the float value 0.0, discharging the
kind-disequality hypothesis. -/
theorem c6_required_empty_dispatch_witness :
    propEmpty PKind.kfloat (pyfloat ⟨0, 1⟩) = !pyTruthy (pyfloat ⟨0, 1⟩) :=
  c6_required_empty_dispatch.2.1 PKind.kfloat (by simp) (pyfloat ⟨0, 1⟩)

/-- C9: on a string property with no choices and no validators,
assigning `None` through the descriptor (`__set__`, lines 105-107)
validates with `required=False` and stores `to_json(None)` =
`unicode(None)`, the literal string `"None"` — for every document,
name, default and required flag — while construction-time
initialization (`__property_init__`, lines 88-93) skips conversion for
`None` and stores null; and the two stored values differ. -/
theorem c9_set_none_stores_none_string :
    (∀ (doc : List (DKey × JValue)) (name : Str) (dflt : DefaultSpec) (req : Bool),
      propSet ⟨PKind.kstr, name, dflt, req, [], []⟩ doc pynone =
        Except.ok (dSet doc (DKey.ks name) (jstr ['N', 'o', 'n', 'e']))) ∧
    (∀ (doc : List (DKey × JValue)) (name : Str) (dflt : DefaultSpec) (req : Bool),
      propertyInit ⟨PKind.kstr, name, dflt, req, [], []⟩ pynone doc =
        Except.ok (dSet doc (DKey.ks name) jnull)) ∧
    jstr ['N', 'o', 'n', 'e'] ≠ jnull := by
  refine ⟨fun doc name dflt req => rfl, fun doc name dflt req => rfl, ?_⟩
  intro h
  simp at h

/-! ## Document schemas (base.py `DocumentSchema` / `DocumentBase`)

A schema is its list of declared descriptors (each descriptor's
attribute name taken as its field name, the `name=` override unused);
an instance's state is its canonical `_doc`.  The store collaborator
of `save` is abstracted to the list of documents handed to
`save_doc`. -/

/-- The `'doc_type'` key written by `__init__` and `to_json`. -/
def docTypeKey : DKey := DKey.ks ['d', 'o', 'c', '_', 't', 'y', 'p', 'e']

/-- The declared pass of `DocumentSchema.__init__` (base.py lines
123-130): each declared property is initialised with its keyword value
— a `None` keyword resolves the default (lines 126-127) — or its
default when no keyword names it. -/
def docInitGo (kwargs : List (DKey × PyVal)) (props : List PropertyDesc)
    (doc : List (DKey × JValue)) : Except PyErr (List (DKey × JValue)) :=
  match props with
  | [] => Except.ok doc
  | p :: rest =>
    let v :=
      match dGet kwargs (DKey.ks p.name) with
      | some pynone => defaultValue p
      | some w => w
      | none => defaultValue p
    match propertyInit p v doc with
    | Except.error e => Except.error e
    | Except.ok doc2 => docInitGo kwargs rest doc2

/-- `DocumentSchema.__init__` (lines 111-130) with keyword arguments:
a fresh `_doc` gets `doc_type`, then the declared pass runs.  The
trailing pass over leftover keyword arguments (dynamic properties,
lines 132-148) is not needed by any theorem and is not modelled. -/
def docInit (dt : Str) (props : List PropertyDesc) (kwargs : List (DKey × PyVal)) :
    Except PyErr (List (DKey × JValue)) :=
  docInitGo kwargs props [(docTypeKey, jstr dt)]

/-- The loop of `DocumentSchema.validate` (lines 338-344) over the
items of `_doc`: for each key naming a declared property, re-read the
value through the descriptor (`getattr` → `__get__`) and validate it
with `required=True`; other keys are skipped. -/
def schemaValidateGo (props : List PropertyDesc) (doc : List (DKey × JValue)) :
    List (DKey × JValue) → Except PyErr Unit
  | [] => Except.ok ()
  | (k, _) :: rest =>
    match props.find? (fun p => DKey.ks p.name == k) with
    | none => schemaValidateGo props doc rest
    | some p =>
      match propGet p doc with
      | Except.error e => Except.error e
      | Except.ok ov =>
        match propValidate p (ov.getD pynone) true with
        | Except.error e => Except.error e
        | Except.ok _ => schemaValidateGo props doc rest

/-- `DocumentSchema.validate` (lines 338-344). -/
def schemaValidate (props : List PropertyDesc) (doc : List (DKey × JValue)) :
    Except PyErr Unit :=
  schemaValidateGo props doc doc

/-- `DocumentSchema.to_json` (lines 167-171): write `doc_type` when
`_doc.get('doc_type')` is `None` (missing key or stored null), then
return `_doc` itself. -/
def toJsonDoc (dt : Str) (doc : List (DKey × JValue)) : List (DKey × JValue) :=
  match dGet doc docTypeKey with
  | none => dSet doc docTypeKey (jstr dt)
  | some jnull => dSet doc docTypeKey (jstr dt)
  | some _ => doc

/-- `DocumentBase.save` (base.py lines 427-441): `self.validate()`
runs first and propagates its error; then a missing `_db` raises
`TypeError`; only then is `save_doc` called, with `self.to_json()`.
The result is the list of documents passed to the store (in call
order) and the raised error, if any.  The post-save `_id`/`_rev`
merge copies fields out of the very dict that was passed (an alias of
`_doc`), so with the store's own mutation of its argument left
unmodelled it changes nothing. -/
def docSave (dt : Str) (props : List PropertyDesc) (doc : List (DKey × JValue))
    (hasDb : Bool) : List (List (DKey × JValue)) × Option PyErr :=
  match schemaValidate props doc with
  | Except.error e => ([], some e)
  | Except.ok _ =>
    if hasDb then ([toJsonDoc dt doc], none)
    else ([], some PyErr.typeError)

/-- A Python dict object together with its identity: `tag` models
`id(obj)`, `val` the contents.  `wrap` adopting the caller's mapping
without copying shows as tag preservation. -/
structure TDoc where
  tag : Nat
  val : List (DKey × JValue)

/-- The value resolution of the declared pass of `wrap` (base.py lines
312-320): the stored value's `to_python` conversion when the key is
present with a non-null value, otherwise the descriptor's default. -/
def wrapValue (p : PropertyDesc) (data : List (DKey × JValue)) : Except PyErr PyVal :=
  match dGet data (DKey.ks p.name) with
  | some jnull => Except.ok (defaultValue p)
  | some v => propToPython p.kind v
  | none => Except.ok (defaultValue p)

/-- The declared loop of `wrap` (lines 312-321): resolve each
property's value against the current `_doc` and run
`__property_init__` on it. -/
def wrapDeclared (props : List PropertyDesc) (doc : List (DKey × JValue)) :
    Except PyErr (List (DKey × JValue)) :=
  match props with
  | [] => Except.ok doc
  | p :: rest =>
    match wrapValue p doc with
    | Except.error e => Except.error e
    | Except.ok v =>
      match propertyInit p v doc with
      | Except.error e => Except.error e
      | Except.ok doc2 => wrapDeclared rest doc2

/-- `_RESERVED_WORDS` (base.py line 40). -/
def reservedWords : List Str :=
  [['_', 'i', 'd'], ['_', 'r', 'e', 'v'],
   ['$', 's', 'c', 'h', 'e', 'm', 'a'], ['t', 'y', 'p', 'e']]

/-- `convert_property` (properties.py lines 622-627): a value whose
type is in `MAP_TYPES_PROPERTIES` goes through a fresh default
property's `to_json` — the identity on strings, bools, ints and
floats, the canonical string for decimals, datetimes, dates and times,
`value_to_json` for containers — and any other value (`None`) passes
through. -/
def convProperty : PyVal → JValue
  | pynone => jnull
  | pybool b => jbool b
  | pyint n => jint n
  | pyfloat f => jfloat f
  | pystr s => jstr s
  | pydecimal d => jstr (formatDec d)
  | pydatetime x => jstr (formatDateTime x)
  | pydate d => jstr (formatDate d)
  | pytime t => jstr (formatTime t)
  | pylist xs => value_to_json (pylist xs)
  | pydict kvs => value_to_json (pydict kvs)

/-- The dynamic branch of `DocumentSchema.__setattr__` (base.py lines
186-218) for a key that is not declared, does not start with `_` and
does not shadow an instance attribute, on an allow-dynamic schema: a
reserved word raises; the type gate of `ALLOWED_PROPERTY_TYPES` admits
every modelled value; a dict value gets a fresh empty node when its
key is absent from `_doc` or the value is falsy (lines 202-205), and
is wrapped by `LazyDict(value, self._doc[key])`, whose constructor
re-inserts the items into the aliased node (`ldInit`); a list value
likewise with `LazyList` (lines 206-209); any other value is stored as
`convert_property(value)` (line 218; no modelled value is callable). -/
def setattrDyn (doc : List (DKey × JValue)) (k : DKey) (w : PyVal) :
    Except PyErr (List (DKey × JValue)) :=
  if (match k with | DKey.ks s => reservedWords.contains s | DKey.ki _ => false) then
    Except.error PyErr.reservedWord
  else
    match w with
    | pydict items =>
      let fresh := (dGet doc k).isNone || !pyTruthy (pydict items)
      let node := if fresh then jobj [] else (dGet doc k).getD (jobj [])
      let doc1 := if fresh then dSet doc k (jobj []) else doc
      match node with
      | jobj kvs =>
        match ldInit items kvs with
        | (_, kvs2, none) => Except.ok (dSet doc1 k (jobj kvs2))
        | (_, _, some e) => Except.error e
      | _ => Except.error PyErr.typeError
    | pylist items =>
      let fresh := (dGet doc k).isNone || !pyTruthy (pylist items)
      let node := if fresh then jarr [] else (dGet doc k).getD (jarr [])
      let doc1 := if fresh then dSet doc k (jarr []) else doc
      match llInit items node with
      | (_, node2, none) => Except.ok (dSet doc1 k node2)
      | (_, _, some e) => Except.error e
    | w => Except.ok (dSet doc k (convProperty w))

/-- The dynamic pass of `wrap` (lines 323-335) over the items of the
adopted `_doc`: declared names, null values, keys starting with `_`
and `doc_type` are skipped; every other item is converted by
`value_to_python` and assigned through `__setattr__`.  Each assignment
only rewrites its own key, so iterating the entry list taken when the
pass starts agrees with Python's live iteration (the dict's size never
changes). -/
def wrapDynGo (props : List PropertyDesc) (doc : List (DKey × JValue)) :
    List (DKey × JValue) → Except PyErr (List (DKey × JValue))
  | [] => Except.ok doc
  | (k, v) :: rest =>
    let skip :=
      (props.find? (fun p => DKey.ks p.name == k)).isSome ||
      (match v with | jnull => true | _ => false) ||
      (match k with
       | DKey.ks ('_' :: _) => true
       | DKey.ks s => s == ['d', 'o', 'c', '_', 't', 'y', 'p', 'e']
       | DKey.ki _ => false)
    if skip then wrapDynGo props doc rest
    else
      match setattrDyn doc k (value_to_python v) with
      | Except.error e => Except.error e
      | Except.ok doc2 => wrapDynGo props doc2 rest

/-- `DocumentSchema.wrap` (base.py lines 307-336): `cls()` constructs
an instance (its fresh `_doc` is then discarded, but a failing default
still propagates), `instance._doc = data` adopts the caller's dict —
no copy, so the result keeps the argument's identity tag — then the
declared pass and (with dynamic properties allowed, the default) the
dynamic pass run, both mutating the adopted dict in place. -/
def docWrap (dt : Str) (props : List PropertyDesc) (d : TDoc) : Except PyErr TDoc :=
  match docInit dt props [] with
  | Except.error e => Except.error e
  | Except.ok _ =>
    match wrapDeclared props d.val with
    | Except.error e => Except.error e
    | Except.ok doc1 =>
      match wrapDynGo props doc1 doc1 with
      | Except.error e => Except.error e
      | Except.ok doc2 => Except.ok ⟨d.tag, doc2⟩

/-- C7: whatever the schema, document and database binding, when
declared-field validation fails, `save` reports exactly that error and
the store receives no call at all; and every document the store does
receive comes after `validate` succeeded and is `to_json()` of the
canonical document. -/
theorem c7_save_validates_before_store :
    ∀ (dt : Str) (props : List PropertyDesc) (doc : List (DKey × JValue)) (hasDb : Bool),
      (∀ e, schemaValidate props doc = Except.error e →
        docSave dt props doc hasDb = ([], some e)) ∧
      (∀ d, d ∈ (docSave dt props doc hasDb).1 →
        schemaValidate props doc = Except.ok () ∧ d = toJsonDoc dt doc) := by
  intro dt props doc hasDb
  constructor
  · intro e h
    simp [docSave, h]
  · intro d hd
    unfold docSave at hd
    cases hval : schemaValidate props doc with
    | error e => rw [hval] at hd; simp at hd
    | ok u =>
      rw [hval] at hd
      dsimp only at hd
      cases hDb : hasDb with
      | false => rw [hDb] at hd; simp at hd
      | true =>
        rw [hDb] at hd
        simp at hd
        exact ⟨rfl, hd⟩

/-- Witness for C7: a schema with one required string property over a
document storing null for it; `validate` raises `BadValueError` and
`save` returns that error with an empty store-call list. -/
theorem c7_save_validates_before_store_witness :
    docSave ['D'] [⟨PKind.kstr, ['n'], DefaultSpec.lit pynone, true, [], []⟩]
        [(DKey.ks ['n'], jnull)] true = ([], some PyErr.badValue) :=
  (c7_save_validates_before_store ['D']
      [⟨PKind.kstr, ['n'], DefaultSpec.lit pynone, true, [], []⟩]
      [(DKey.ks ['n'], jnull)] true).1 PyErr.badValue rfl

/-! ## Frame lemmas for the wrap theorem -/

theorem dGet_dSet_self {α : Type} (d : List (DKey × α)) (k : DKey) (v : α) :
    dGet (dSet d k v) k = some v := by
  induction d with
  | nil => simp [dSet, dGet]
  | cons kv rest ih =>
    obtain ⟨k1, v1⟩ := kv
    by_cases h : k1 = k
    · subst h; simp [dSet, dGet]
    · simp [dSet, dGet, h, ih]

theorem dGet_dSet_ne {α : Type} (d : List (DKey × α)) (k k' : DKey) (v : α)
    (h : k' ≠ k) : dGet (dSet d k v) k' = dGet d k' := by
  induction d with
  | nil => simp [dSet, dGet, Ne.symm h]
  | cons kv rest ih =>
    obtain ⟨k1, v1⟩ := kv
    by_cases h1 : k1 = k
    · subst h1; simp [dSet, dGet, Ne.symm h]
    · simp [dSet, dGet, h1, ih]

theorem propSet_shape (p : PropertyDesc) (doc doc2 : List (DKey × JValue)) (v : PyVal)
    (h : propSet p doc v = Except.ok doc2) :
    ∃ j, doc2 = dSet doc (DKey.ks p.name) j ∧
      propSet p [] v = Except.ok [(DKey.ks p.name, j)] := by
  unfold propSet at h ⊢
  cases hv : propValidate p v false with
  | error e => rw [hv] at h; simp at h
  | ok v2 =>
    rw [hv] at h
    dsimp only at h ⊢
    cases hj : propToJson p.kind v2 with
    | error e => rw [hj] at h; simp at h
    | ok j =>
      rw [hj] at h
      dsimp only at h ⊢
      refine ⟨j, ?_, rfl⟩
      injection h with h2
      exact h2.symm

theorem propertyInit_eq_propSet (p : PropertyDesc) (v : PyVal)
    (doc : List (DKey × JValue)) (hv : v ≠ pynone) :
    propertyInit p v doc = propSet p doc v := by
  cases v with
  | pynone => exact absurd rfl hv
  | pybool b => rfl
  | pyint n => rfl
  | pyfloat f => rfl
  | pystr s => rfl
  | pydate d => rfl
  | pytime t => rfl
  | pydatetime x => rfl
  | pydecimal d => rfl
  | pylist xs => rfl
  | pydict kvs => rfl

theorem propertyInit_shape (p : PropertyDesc) (v : PyVal) (doc doc2 : List (DKey × JValue))
    (h : propertyInit p v doc = Except.ok doc2) :
    ∃ j, doc2 = dSet doc (DKey.ks p.name) j ∧
      propertyInit p v [] = Except.ok [(DKey.ks p.name, j)] := by
  by_cases hv : v = pynone
  · subst hv
    refine ⟨jnull, ?_, rfl⟩
    injection h with h2
    exact h2.symm
  · rw [propertyInit_eq_propSet p v doc hv] at h
    rw [propertyInit_eq_propSet p v [] hv]
    exact propSet_shape p doc doc2 v h

theorem wrapValue_congr (p : PropertyDesc) (d1 d2 : List (DKey × JValue))
    (h : dGet d1 (DKey.ks p.name) = dGet d2 (DKey.ks p.name)) :
    wrapValue p d1 = wrapValue p d2 := by
  unfold wrapValue
  rw [h]

theorem wrapDeclared_spec :
    ∀ (props : List PropertyDesc) (doc docOut : List (DKey × JValue)),
      (props.map PropertyDesc.name).Nodup →
      wrapDeclared props doc = Except.ok docOut →
      (∀ p ∈ props, ∃ v j, wrapValue p doc = Except.ok v ∧
        propertyInit p v [] = Except.ok [(DKey.ks p.name, j)] ∧
        dGet docOut (DKey.ks p.name) = some j) ∧
      (∀ k, (∀ p ∈ props, DKey.ks p.name ≠ k) → dGet docOut k = dGet doc k) := by
  intro props
  induction props with
  | nil =>
    intro doc docOut _ h
    unfold wrapDeclared at h
    injection h with h2
    subst h2
    exact ⟨fun p hp => absurd hp (List.not_mem_nil p), fun k _ => rfl⟩
  | cons p rest ih =>
    intro doc docOut hnd h
    unfold wrapDeclared at h
    cases hwv : wrapValue p doc with
    | error e => rw [hwv] at h; simp at h
    | ok v =>
      rw [hwv] at h
      dsimp only at h
      cases hpi : propertyInit p v doc with
      | error e => rw [hpi] at h; simp at h
      | ok doc2 =>
        rw [hpi] at h
        dsimp only at h
        obtain ⟨j, hdoc2, hinit0⟩ := propertyInit_shape p v doc doc2 hpi
        rw [List.map_cons, List.nodup_cons] at hnd
        obtain ⟨hpn, hndr⟩ := hnd
        obtain ⟨A, F⟩ := ih doc2 docOut hndr h
        have hne : ∀ q ∈ rest, DKey.ks q.name ≠ DKey.ks p.name := by
          intro q hq heq
          apply hpn
          have : q.name = p.name := by injection heq
          exact this ▸ List.mem_map_of_mem PropertyDesc.name hq
        constructor
        · intro q hq
          rcases List.mem_cons.mp hq with hq | hq'
          · subst hq
            refine ⟨v, j, hwv, hinit0, ?_⟩
            have hF : dGet docOut (DKey.ks q.name) = dGet doc2 (DKey.ks q.name) :=
              F (DKey.ks q.name) hne
            rw [hF, hdoc2, dGet_dSet_self]
          · obtain ⟨v', j', hwv', hin', hout'⟩ := A q hq'
            refine ⟨v', j', ?_, hin', hout'⟩
            rw [← hwv']
            apply wrapValue_congr
            rw [hdoc2, dGet_dSet_ne _ _ _ _ (hne q hq')]
        · intro k hk
          have h1 : dGet docOut k = dGet doc2 k :=
            F k (fun r hr => hk r (List.mem_cons_of_mem p hr))
          rw [h1, hdoc2, dGet_dSet_ne _ _ _ _ (Ne.symm (hk p (List.mem_cons_self p rest)))]

theorem setattrDyn_frame (doc : List (DKey × JValue)) (k' : DKey) (w : PyVal)
    (doc2 : List (DKey × JValue)) (h : setattrDyn doc k' w = Except.ok doc2)
    (k : DKey) (hkk : k ≠ k') : dGet doc2 k = dGet doc k := by
  unfold setattrDyn at h
  dsimp only at h
  split at h
  · simp at h
  · cases w <;> dsimp only at h
    all_goals repeat split at h
    all_goals simp at h
    all_goals subst h
    all_goals simp only [dGet_dSet_ne _ _ _ _ hkk]

theorem wrapDynGo_frame :
    ∀ (items : List (DKey × JValue)) (props : List PropertyDesc)
      (doc docOut : List (DKey × JValue)),
      wrapDynGo props doc items = Except.ok docOut →
      ∀ k, (∃ p ∈ props, DKey.ks p.name = k) → dGet docOut k = dGet doc k := by
  intro items
  induction items with
  | nil =>
    intro props doc docOut h k _
    unfold wrapDynGo at h
    injection h with h2
    subst h2
    rfl
  | cons kv rest ih =>
    obtain ⟨k1, v1⟩ := kv
    intro props doc docOut h k hdecl
    unfold wrapDynGo at h
    dsimp only at h
    split at h
    · exact ih props doc docOut h k hdecl
    · rename_i hns
      split at h
      · simp at h
      · rename_i doc2 heq
        have hkk : k ≠ k1 := by
          intro he
          apply hns
          subst he
          obtain ⟨p, hp, hpk⟩ := hdecl
          have hfind : (props.find? (fun q => DKey.ks q.name == k)).isSome := by
            rw [List.find?_isSome]
            exact ⟨p, hp, by simp [hpk]⟩
          simp [hfind]
        have h2 := ih props doc2 docOut h k hdecl
        rw [h2]
        exact setattrDyn_frame doc k1 (value_to_python v1) doc2 heq k hkk

/-- C10: `wrap(data)` adopts the caller's dict as the canonical
document without copying (the result keeps the argument's identity
tag), and — for declared names that do not collide — writes an entry
for every declared field into it: the entry is exactly what
`__property_init__` stores for the wrap-resolved value (the converted
stored value when present and non-null, otherwise the default; null
when that value is `None`), so after a successful wrap every declared
field's key is present in the adopted, mutated dict. -/
theorem c10_wrap_adopts_and_fills :
    ∀ (dt : Str) (props : List PropertyDesc) (d : TDoc) (res : TDoc),
      (props.map PropertyDesc.name).Nodup →
      docWrap dt props d = Except.ok res →
      res.tag = d.tag ∧
      ∀ p ∈ props, ∃ v j,
        wrapValue p d.val = Except.ok v ∧
        propertyInit p v [] = Except.ok [(DKey.ks p.name, j)] ∧
        dGet res.val (DKey.ks p.name) = some j := by
  intro dt props d res hnd h
  unfold docWrap at h
  split at h
  · simp at h
  · split at h
    · simp at h
    · rename_i doc1 heq1
      split at h
      · simp at h
      · rename_i doc2 heq2
        injection h with h2
        subst h2
        constructor
        · rfl
        · intro p hp
          obtain ⟨A, F⟩ := wrapDeclared_spec props d.val doc1 hnd heq1
          obtain ⟨v, j, hv, hj, hout⟩ := A p hp
          refine ⟨v, j, hv, hj, ?_⟩
          have hfr := wrapDynGo_frame doc1 props doc1 doc2 heq2 (DKey.ks p.name) ⟨p, hp, rfl⟩
          exact hfr.trans hout

/-- Witness for C10: a schema with one declared integer property
(default 5) wrapping the dict `{'a': 1}` with identity tag 7: the
result keeps tag 7 and holds `{'a': 1, 'n': 5}`, with the declared
entry exactly as `__property_init__` writes it. -/
theorem c10_wrap_adopts_and_fills_witness :
    (TDoc.mk 7 [(DKey.ks ['a'], jint 1), (DKey.ks ['n'], jint 5)]).tag =
      (TDoc.mk 7 [(DKey.ks ['a'], jint 1)]).tag ∧
    ∀ p ∈ [(⟨PKind.kint, ['n'], DefaultSpec.lit (pyint 5), false, [], []⟩ : PropertyDesc)],
      ∃ v j,
        wrapValue p (TDoc.mk 7 [(DKey.ks ['a'], jint 1)]).val = Except.ok v ∧
        propertyInit p v [] = Except.ok [(DKey.ks p.name, j)] ∧
        dGet (TDoc.mk 7 [(DKey.ks ['a'], jint 1), (DKey.ks ['n'], jint 5)]).val
          (DKey.ks p.name) = some j :=
  c10_wrap_adopts_and_fills ['D']
    [⟨PKind.kint, ['n'], DefaultSpec.lit (pyint 5), false, [], []⟩]
    (TDoc.mk 7 [(DKey.ks ['a'], jint 1)])
    (TDoc.mk 7 [(DKey.ks ['a'], jint 1), (DKey.ks ['n'], jint 5)])
    (by simp) rfl

end Couch
